import Mathlib

/-!
Verification development for the Game-Store platform
(lobby server, developer server, store server, framing layer).

Each Python function named in the claims is shallowly embedded as an
executable Lean definition; bytes are `Nat` values below 256, byte strings
are `List Nat`, dictionaries become structures, and the asyncio handlers
become pure state-transition functions returning `(reply, newState)`.
SHA-256 is kept abstract as a parameter `hash : List Nat → String`
(the incremental hasher state is modelled by the exact byte string fed to
it, which is faithful because feeding chunks incrementally equals hashing
their concatenation).
-/

namespace Framing

/-- `MAX_FRAME = 64 * 1024` from src/common/framing.py. -/
def MAX_FRAME : Nat := 64 * 1024

/-- Big-endian 4-byte header for `struct.Struct("!I").pack`. -/
def packHdr (n : Nat) : List Nat :=
  [n / 2 ^ 24 % 256, n / 2 ^ 16 % 256, n / 2 ^ 8 % 256, n % 256]

/-- `struct.Struct("!I").unpack` on four bytes. -/
def unpackHdr (b0 b1 b2 b3 : Nat) : Nat :=
  b0 * 2 ^ 24 + b1 * 2 ^ 16 + b2 * 2 ^ 8 + b3

/-- `send_frame`: raises `FramingError` (modelled `none`) unless
`0 < len(payload) ≤ MAX_FRAME`; otherwise writes header ++ payload. -/
def send_frame (payload : List Nat) : Option (List Nat) :=
  if payload.length = 0 ∨ payload.length > MAX_FRAME then none
  else some (packHdr payload.length ++ payload)

/-- Result of `recv_frame` on a byte stream: the stream ended cleanly
(`closed`, Python `None`), the header length was out of bounds
(`protoError`, Python `FramingError`), or a full frame was read. -/
inductive RecvResult
  | closed
  | protoError
  | frame (body : List Nat)
deriving DecidableEq, Repr

/-- `recv_frame`: read 4 header bytes (EOF ⇒ closed), check
`1 ≤ L ≤ MAX_FRAME` (else FramingError), then read `L` body bytes
(EOF before `L` bytes ⇒ closed). -/
def recv_frame (stream : List Nat) : RecvResult :=
  match stream with
  | b0 :: b1 :: b2 :: b3 :: rest =>
    let length := unpackHdr b0 b1 b2 b3
    if length = 0 ∨ length > MAX_FRAME then .protoError
    else if rest.length < length then .closed
    else .frame (rest.take length)
  | _ => .closed

end Framing

namespace Py

/-- Python `str.strip()`: drop leading and trailing whitespace
(structurally, so concrete instances evaluate in the kernel). -/
def strip (s : String) : String :=
  String.mk
    (((s.toList.dropWhile Char.isWhitespace).reverse.dropWhile
      Char.isWhitespace).reverse)

/-- Python `str.lower()` for the ASCII strings this system uses. -/
def lower (s : String) : String := String.mk (s.toList.map Char.toLower)

/-- `sep.join(items)` as the JSON serializer emits it (structural, so
concrete instances evaluate in the kernel). -/
def joinSep (sep : String) : List String → String
  | [] => ""
  | [x] => x
  | x :: y :: xs => x ++ sep ++ joinSep sep (y :: xs)

end Py

namespace Assoc

/-- Python `dict.get`. -/
def lookupA {α β : Type} [DecidableEq α] : List (α × β) → α → Option β
  | [], _ => none
  | (k, v) :: rest, a => if k = a then some v else lookupA rest a

/-- Python `dict[key] = value` (replace or append). -/
def setA {α β : Type} [DecidableEq α] : List (α × β) → α → β → List (α × β)
  | [], a, b => [(a, b)]
  | (k, v) :: rest, a, b =>
    if k = a then (a, b) :: rest else (k, v) :: setA rest a b

/-- Python `dict.pop(key, None)`. -/
def delA {α β : Type} [DecidableEq α] : List (α × β) → α → List (α × β)
  | [], _ => []
  | (k, v) :: rest, a =>
    if k = a then delA rest a else (k, v) :: delA rest a

/-- Update the value at `a` when present; no-op when absent. -/
def mapA {α β : Type} [DecidableEq α] (l : List (α × β)) (a : α) (f : β → β) :
    List (α × β) :=
  match lookupA l a with
  | none => l
  | some b => setA l a (f b)

end Assoc

namespace DevServer

open Assoc

/-- Result of strict base64 decoding of a chunk's `dataB64` field
(`base64.b64decode(…, validate=True)`): either a decode failure or the
decoded byte string (strict base64 is a bijection on valid inputs). -/
inductive B64
  | invalid
  | bytes (bs : List Nat)
deriving DecidableEq, Repr

/-- Character class of `_GAME_ID_RE = ^[A-Za-z0-9_-]{1,64}$`. -/
def gameIdChar (c : Char) : Bool :=
  c.isAlpha || c.isDigit || c = '_' || c = '-'

def gameIdOk (s : String) : Bool :=
  1 ≤ s.length && s.length ≤ 64 && s.toList.all gameIdChar

/-- Character class of `_VERSION_RE = ^[A-Za-z0-9_.-]{1,64}$`. -/
def versionChar (c : Char) : Bool := gameIdChar c || c = '.'

def versionOk (s : String) : Bool :=
  1 ≤ s.length && s.length ≤ 64 && s.toList.all versionChar

def slugChar (c : Char) : Bool := c.isLower || c.isDigit

/-- `_slugify`: lowercase, replace runs of non-`[a-z0-9]` with `_`, strip
leading/trailing `_`, truncate to 32 characters. -/
def slugify (name : String) : String :=
  let s := Py.lower (Py.strip name)
  let segs := (s.toList.splitOnP (fun c => !slugChar c)).filter (· ≠ [])
  let joined := String.intercalate "_" (segs.map (fun l => String.mk l))
  String.mk (joined.toList.take 32)

/-- Store-side `Game` row (columns the ingest pipeline reads). -/
structure GameRow where
  id : Nat
  gameId : String
  name : String
  description : String
  developerId : Nat
  delisted : Bool
deriving DecidableEq, Repr

/-- Store-side `GameVersion` row (columns the claims read). -/
structure GameVersionRow where
  id : Nat
  gameFk : Nat
  version : String
  fileName : String
  sizeBytes : Nat
  sha256 : String
  clientType : String
  minPlayers : Nat
  maxPlayers : Nat
deriving DecidableEq, Repr

/-- `UploadSession` from src/server/developer_server.py. The incremental
`hashlib.sha256()` state is modelled by `hasherBytes`, the exact byte
string fed to it so far (feeding chunks incrementally hashes their
concatenation). -/
structure UploadSession where
  upload_id : String
  developer_id : Nat
  game_id : String
  version : String
  file_name : String
  expected_size : Nat
  expected_sha256 : String
  auto_created_game : Bool
  received : Nat
  next_seq : Nat
  hasherBytes : List Nat
deriving DecidableEq, Repr

/-- Developer-server state: `UPLOADS`, the temp files under `tmpRoot`
(keyed by uploadId, path `<tmpRoot>/<uploadId>.zip.part`), the files under
`uploadRoot` (package zips and extracted trees keyed by
`(gameId, version)`), and the store's Game/GameVersion tables. -/
structure DevState where
  uploads : List (String × UploadSession)
  tmpFiles : List (String × List Nat)
  pkgZips : List ((String × String) × List Nat)
  extractedDirs : List ((String × String) × List String)
  games : List GameRow
  gameVersions : List GameVersionRow
  nextGameId : Nat
  nextGvId : Nat
deriving DecidableEq, Repr

/-- Store `Game.get_by_gameId` (`none` models the `not_found` reply). -/
def getGameByGameId (st : DevState) (gid : String) : Option GameRow :=
  st.games.find? (fun g => g.gameId == gid)

/-- Store `Game.create`: gameId must be new (unique column), row inserted
with the next autoincrement id. The `clientType`/`minPlayers`/`maxPlayers`
hints the developer server sends are dropped by the store's INSERT. -/
def db_game_create (st : DevState) (gid nm desc : String) (devId : Nat) :
    Except String (Nat × DevState) :=
  if gid = "" ∨ nm = "" ∨ desc = "" ∨ devId = 0 then .error "missing_fields"
  else if (getGameByGameId st gid).isSome then .error "game_exists"
  else
    let row : GameRow := { id := st.nextGameId, gameId := gid, name := nm,
                           description := desc, developerId := devId,
                           delisted := false }
    .ok (st.nextGameId,
      { st with games := st.games ++ [row], nextGameId := st.nextGameId + 1 })

/-- Store `GameVersion.create`: `(gameFk, version)` unique, else
`version_exists` (sqlite IntegrityError). -/
def db_game_version_create (st : DevState) (gameDbId : Nat)
    (up : UploadSession) (clientType : String) (minP maxP : Nat) :
    Except String (Nat × DevState) :=
  if gameDbId = 0 ∨ up.version = "" then .error "missing_fields"
  else if st.gameVersions.any
      (fun gv => gv.gameFk == gameDbId && gv.version == up.version) then
    .error "version_exists"
  else
    let row : GameVersionRow :=
      { id := st.nextGvId, gameFk := gameDbId, version := up.version,
        fileName := up.file_name, sizeBytes := up.expected_size,
        sha256 := up.expected_sha256, clientType := clientType,
        minPlayers := minP, maxPlayers := maxP }
    .ok (st.nextGvId,
      { st with gameVersions := st.gameVersions ++ [row],
                nextGvId := st.nextGvId + 1 })

/-- `_reserve_unique_game_id`: probe `base`, then `base_<suffix>` for each
random suffix from the 19 retry rounds, returning the first gameId the
store does not know; unconditional fallback `base_<fallback>` after that.
`suffixes`/`fallback` supply the `secrets.token_hex` outputs. -/
def reserve_unique_game_id (st : DevState) (base0 : String)
    (developerId : Nat) (suffixes : List String) (fallback : String) :
    String :=
  let base := if base0 = "" then "game_" ++ toString developerId else base0
  let cands := base :: suffixes.map (fun s => base ++ "_" ++ s)
  match cands.find? (fun gid => (getGameByGameId st gid).isNone) with
  | some gid => gid
  | none => base ++ "_" ++ fallback

inductive InitReply
  | ok (uploadId : String) (gameId : String) (created : Bool)
  | err (code : String)
deriving DecidableEq, Repr

inductive ChunkReply
  | ok (received expected : Nat)
  | err (code : String)
deriving DecidableEq, Repr

inductive FinishReply
  | ok (gameVersionId : Nat)
  | err (code : String)
deriving DecidableEq, Repr

/-- `game_upload_init` request fields after JSON decoding; absent string
fields arrive as `""` and absent numeric fields as `0`, matching
`data.get(k) or default`. -/
structure InitReq where
  gameId : String
  version : String
  fileName : String
  sizeBytes : Int
  sha256 : String
  name : String
  description : String
deriving DecidableEq, Repr

/-- Shared tail of `handle_upload_init`: allocate the upload session and
the empty temp file and reply with the uploadId. -/
def initFinishSession (devId : Nat) (gid version file_name : String)
    (expected_size : Int) (expected_sha256 : String) (created : Bool)
    (uploadIdFresh : String) (st : DevState) : InitReply × DevState :=
  let sess : UploadSession :=
    { upload_id := uploadIdFresh, developer_id := devId, game_id := gid,
      version := version, file_name := file_name,
      expected_size := expected_size.toNat,
      expected_sha256 := expected_sha256, auto_created_game := created,
      received := 0, next_seq := 0, hasherBytes := [] }
  let st :=
    { st with uploads := setA st.uploads uploadIdFresh sess,
              tmpFiles := setA st.tmpFiles uploadIdFresh [] }
  (.ok uploadIdFresh gid created, st)

/-- `handle_upload_init` (developer_server.py lines 241-365). `dev` is the
connection's authenticated session; `uploadIdFresh`, `suffixes` and
`fallback` supply the `secrets.token_hex` outputs. The
`clientType`/`minPlayers`/`maxPlayers` request hints are forwarded to the
store's `Game.create`, which drops them, so they are not modelled. -/
def handle_upload_init (dev : Option Nat) (req : InitReq)
    (uploadIdFresh : String) (suffixes : List String) (fallback : String)
    (st : DevState) : InitReply × DevState :=
  match dev with
  | none => (.err "not_logged_in", st)
  | some devId =>
    let game_id0 := Py.strip req.gameId
    let version := Py.strip req.version
    let file_name := Py.strip req.fileName
    let expected_size := req.sizeBytes
    let expected_sha256 := Py.lower (Py.strip req.sha256)
    if version = "" ∨ expected_size ≤ 0 ∨ expected_sha256 = "" then
      (.err "missing_fields", st)
    else if !versionOk version then (.err "bad_version", st)
    else if game_id0 ≠ "" ∧ !gameIdOk game_id0 then (.err "bad_game_id", st)
    else if game_id0 = "" then
      -- auto-create a Game row from the provided metadata
      let nm := Py.strip req.name
      let desc := Py.strip req.description
      if nm = "" ∨ desc = "" then (.err "missing_fields", st)
      else
        let gid := reserve_unique_game_id st (slugify nm) devId suffixes fallback
        match db_game_create st gid nm desc devId with
        | .error e => (.err e, st)
        | .ok (_, st1) =>
          initFinishSession devId gid version file_name expected_size
            expected_sha256 true uploadIdFresh st1
    else
      match getGameByGameId st game_id0 with
      | some g =>
        if g.developerId ≠ devId then (.err "not_owner", st)
        else
          initFinishSession devId game_id0 version file_name expected_size
            expected_sha256 false uploadIdFresh st
      | none =>
        -- store replied not_found: create the game from metadata
        let nm := Py.strip req.name
        let desc := Py.strip req.description
        if nm = "" ∨ desc = "" then (.err "missing_fields", st)
        else
          match db_game_create st game_id0 nm desc devId with
          | .ok (_, st1) =>
            initFinishSession devId game_id0 version file_name expected_size
              expected_sha256 true uploadIdFresh st1
          | .error e =>
            if e = "game_exists" then
              -- raced into existence: re-check ownership
              match getGameByGameId st game_id0 with
              | some g2 =>
                if g2.developerId = devId then
                  initFinishSession devId game_id0 version file_name
                    expected_size expected_sha256 false uploadIdFresh st
                else (.err e, st)
              | none => (.err e, st)
            else (.err e, st)

/-- Append bytes to a temp file (`open("ab")` creates when absent). -/
def appendFile (fs : List (String × List Nat)) (k : String) (bs : List Nat) :
    List (String × List Nat) :=
  setA fs k ((lookupA fs k).getD [] ++ bs)

/-- `handle_upload_chunk` (developer_server.py lines 368-408). -/
def handle_upload_chunk (dev : Option Nat) (uploadId0 : String) (seq : Int)
    (dataB64 : B64) (st : DevState) : ChunkReply × DevState :=
  match dev with
  | none => (.err "not_logged_in", st)
  | some devId =>
    let upload_id := Py.strip uploadId0
    match lookupA st.uploads upload_id with
    | none => (.err "no_such_upload", st)
    | some up =>
      if up.developer_id ≠ devId then (.err "not_owner", st)
      else if seq ≠ (up.next_seq : Int) then (.err "bad_seq", st)
      else
        match dataB64 with
        | .invalid => (.err "bad_base64", st)
        | .bytes chunk =>
          if chunk = [] then (.err "empty_chunk", st)
          else if up.received + chunk.length > up.expected_size then
            (.err "too_large", st)
          else
            let up' :=
              { up with received := up.received + chunk.length,
                        next_seq := up.next_seq + 1,
                        hasherBytes := up.hasherBytes ++ chunk }
            let st' :=
              { st with uploads := setA st.uploads upload_id up',
                        tmpFiles := appendFile st.tmpFiles upload_id chunk }
            (.ok up'.received up.expected_size, st')

/-- The manifest fields `handle_upload_finish` reads after
`load_manifest_from_dir` has validated the package root. -/
structure ManifestView where
  gameId : String
  version : String
  clientType : String
  minPlayers : Nat
  maxPlayers : Nat
deriving DecidableEq, Repr

/-- What the `zipfile`/filesystem layer computes from the uploaded bytes:
`entries` is `none` when the bytes are not a zip archive
(`zipfile.BadZipFile`), else the archive member filenames; the other
fields describe the extracted tree — the result of
`load_manifest_from_dir` at the detected package root (`manifest = none`
with `manifestErr` the returned error string) and whether the two declared
entrypoint files exist there. -/
structure ArchiveInfo where
  entries : Option (List String)
  manifest : Option ManifestView
  manifestErr : String
  serverEntryExists : Bool
  clientEntryExists : Bool
deriving DecidableEq, Repr

/-- `PurePosixPath(s).parts` without the root marker: split on `/`, drop
empty components and `.` (structurally, so concrete entries evaluate in
the kernel). -/
def pathParts (s : String) : List String :=
  ((s.toList.splitOnP (fun c => c = '/')).map String.mk).filter
    (fun c => c ≠ "" && c ≠ ".")

def isAbsolutePath (s : String) : Bool :=
  match s.toList with
  | '/' :: _ => true
  | _ => false

/-- The `_safe_extract_zip` rejection test: absolute path or a `..`
component. -/
def unsafeZipEntryName (s : String) : Bool :=
  isAbsolutePath s || (pathParts s).contains ".."

/-- `handle_upload_finish` (developer_server.py lines 411-515) plus
`_safe_extract_zip` (lines 92-103). `hash` is the abstract SHA-256 hex
digest of a byte string; `archiveOf` gives the zipfile/manifest semantics
of the uploaded bytes. Exceptions inside the move/extract `try` block are
reported as `extract_failed:<exception text>`. -/
def handle_upload_finish (dev : Option Nat) (uploadId0 : String)
    (hash : List Nat → String) (archiveOf : List Nat → ArchiveInfo)
    (st : DevState) : FinishReply × DevState :=
  match dev with
  | none => (.err "not_logged_in", st)
  | some devId =>
    let upload_id := Py.strip uploadId0
    match lookupA st.uploads upload_id with
    | none => (.err "no_such_upload", st)
    | some up =>
      if up.developer_id ≠ devId then (.err "not_owner", st)
      else if up.received ≠ up.expected_size then (.err "size_mismatch", st)
      else if Py.lower (hash up.hasherBytes) ≠ up.expected_sha256 then
        (.err "hash_mismatch", st)
      else
        match lookupA st.tmpFiles upload_id with
        | none => (.err "extract_failed:FileNotFoundError", st)
        | some zipBytes =>
          let key := (up.game_id, up.version)
          -- game_dir.mkdir; shutil.move(temp → package.zip);
          -- rmtree of any prior extracted/; _safe_extract_zip's mkdir
          let st1 :=
            { st with tmpFiles := delA st.tmpFiles upload_id,
                      pkgZips := setA st.pkgZips key zipBytes,
                      extractedDirs := setA (delA st.extractedDirs key) key [] }
          let info := archiveOf zipBytes
          match info.entries with
          | none => (.err "extract_failed:BadZipFile", st1)
          | some es =>
            if es.any unsafeZipEntryName then
              (.err "extract_failed:unsafe_zip_entry", st1)
            else
              let st2 :=
                { st1 with extractedDirs := setA st1.extractedDirs key es }
              match info.manifest with
              | none =>
                (.err (if info.manifestErr = "" then "bad_manifest"
                       else info.manifestErr), st2)
              | some m =>
                if m.gameId ≠ up.game_id then
                  (.err "manifest_gameId_mismatch", st2)
                else if m.version ≠ up.version then
                  (.err "manifest_version_mismatch", st2)
                else if !info.serverEntryExists then
                  (.err "missing_server_entry", st2)
                else if !info.clientEntryExists then
                  (.err "missing_client_entry", st2)
                else
                  match getGameByGameId st2 up.game_id with
                  | none => (.err "not_found", st2)
                  | some g =>
                    if g.id = 0 then (.err "bad_game_row", st2)
                    else
                      match db_game_version_create st2 g.id up m.clientType
                          m.minPlayers m.maxPlayers with
                      | .error e => (.err e, st2)
                      | .ok (gvId, st3) =>
                        (.ok gvId,
                          { st3 with
                            uploads := delA st3.uploads upload_id })

/-- Deliver `chunks` in order with `seq = seq0, seq0+1, …` — the
well-formed strictly increasing stream of claim C2. -/
def runChunks (dev : Option Nat) (uploadId : String)
    (chunks : List (List Nat)) (seq0 : Nat) (st : DevState) : DevState :=
  match chunks with
  | [] => st
  | c :: cs =>
    runChunks dev uploadId cs (seq0 + 1)
      (handle_upload_chunk dev uploadId (seq0 : Int) (.bytes c) st).2

end DevServer

namespace Lobby

open Assoc

/-- The single modelled room's id (all claims are per-room). -/
def RID : Nat := 1

inductive RStatus
  | waiting
  | playing
deriving DecidableEq, Repr

/-- Whether the spawned child process is still running
(`proc.returncode is None`) or has exited. -/
inductive ProcState
  | running
  | exited
deriving DecidableEq, Repr

/-- Store-side `Room` + `RoomMember` rows for the room. `members` holds
`(playerId, joinedAt)` in ascending `joinedAt` order: `now_ts` is modelled
as a strictly increasing logical clock, so insertion order and the store's
`ORDER BY joinedAt ASC` agree. -/
structure DbRoom where
  hostPlayerId : Nat
  members : List (Nat × Nat)
  status : RStatus
deriving DecidableEq, Repr

/-- The `players` list `Room.get` returns (`ORDER BY joinedAt ASC`). -/
def dbPlayers (r : DbRoom) : List Nat := r.members.map Prod.fst

/-- The lobby's `RoomLive` cache entry (ROOMS). -/
structure RoomLive where
  host_player_id : Nat
  players : List Nat
  status : RStatus
  token : Option String
  game_port : Option Nat
  game_proc : Option ProcState
deriving DecidableEq, Repr

/-- `minPlayers`/`maxPlayers` of the GameVersion attached to the room
(joined into `Room.get`). -/
structure GVCfg where
  minPlayers : Nat
  maxPlayers : Nat
deriving DecidableEq, Repr

/-- Events pushed to players. A push is delivered only when the recipient
has a live session (`_push_event_to_player`). -/
inductive PEvent
  | player_joined (toPlayer : Nat) (pid : Nat)
  | player_left (toPlayer : Nat) (pid : Nat)
  | host_changed (toPlayer : Nat) (newHost : Nat)
  | game_info (toPlayer : Nat)
  | game_ready (toPlayer : Nat) (reason : String)
deriving DecidableEq, Repr

def isReadyEvent : PEvent → Bool
  | .game_ready _ _ => true
  | _ => false

/-- The `post_result` payload fields `_finish_match` reads: `reason`
(`""` models an absent field, defaulted to `"finished"`) and the
JSON-serialized `results` array. -/
structure MatchResult where
  reason : String
  resultsStr : String
deriving DecidableEq, Repr

/-- The `resultsJson` envelope `_finish_match` persists:
`json.dumps({"players": [{"userId": p} …], "results": …})` with the
default `", "`/`": "` separators. -/
def renderPlayersJson (ps : List Nat) : String :=
  "[" ++ Py.joinSep ", "
    (ps.map (fun p => "\x7b\"userId\": " ++ toString p ++ "\x7d")) ++ "]"

def renderResultsEnvelope (ps : List Nat) (resultsStr : String) : String :=
  "\x7b\"players\": " ++ renderPlayersJson ps ++ ", \"results\": " ++
    resultsStr ++ "\x7d"

structure MatchLogRow where
  roomId : Nat
  reason : String
  participants : List Nat
  resultsJson : String
deriving DecidableEq, Repr

/-- Lobby state for the modelled room: the store row, the ROOMS cache
entry, `SESSIONS_BY_PLAYER_ID` (playerId → that session's `room_id`), the
store's MatchLog table, the delivered event pushes, an instrumentation
counter for the `game_ready` push loop in `_finish_match`, and the
logical clock. -/
structure LState where
  room : Option DbRoom
  live : Option RoomLive
  sessions : List (Nat × Option Nat)
  matchLogs : List MatchLogRow
  events : List PEvent
  gameReadyBroadcasts : Nat
  clock : Nat
deriving DecidableEq, Repr

inductive LReply
  | ok (tag : String)
  | err (code : String)
deriving DecidableEq, Repr

/-- `_push_event_to_player`: deliver only when the player has a session. -/
def pushTo (st : LState) (pid : Nat) (e : PEvent) : LState :=
  match lookupA st.sessions pid with
  | none => st
  | some _ => { st with events := st.events ++ [e] }

def pushAll (st : LState) (ps : List Nat) (mk : Nat → PEvent) : LState :=
  ps.foldl (fun s u => pushTo s u (mk u)) st

/-- `sess.room_id = x` for the session of `pid`, when that session is
still registered. -/
def setSessRoom (st : LState) (pid : Nat) (r : Option Nat) : LState :=
  { st with sessions := mapA st.sessions pid (fun _ => r) }

/-- `_ensure_room_live` (lobby_server.py lines 166-185): return the cached
entry or rebuild it from the store row; a rebuilt entry has no token, port
or process handle. -/
def ensure_room_live (st : LState) : Option RoomLive × LState :=
  match st.live with
  | some l => (some l, st)
  | none =>
    match st.room with
    | none => (none, st)
    | some r =>
      let l : RoomLive :=
        { host_player_id := r.hostPlayerId, players := dbPlayers r,
          status := r.status, token := none, game_port := none,
          game_proc := none }
      (some l, { st with live := some l })

/-- `_finish_match` (lobby_server.py lines 583-649). -/
def finish_match (st : LState) (result : Option MatchResult) : LState :=
  match ensure_room_live st with
  | (none, st1) => st1
  | (some live, st1) =>
    let already_finished :=
      live.status != RStatus.playing && live.game_proc == none &&
        live.token == none
    if already_finished && result == none then st1
    else
      -- best-effort terminate-then-kill: the child ends up exited
      let live1 := { live with game_proc := live.game_proc.map (fun _ => .exited) }
      let st2 := { st1 with live := some live1 }
      let st3 :=
        match result with
        | none => st2
        | some r =>
          let reason := if r.reason = "" then "finished" else r.reason
          { st2 with matchLogs := st2.matchLogs ++
              [{ roomId := RID, reason := reason,
                 participants := live1.players,
                 resultsJson :=
                   renderResultsEnvelope live1.players r.resultsStr }] }
      if already_finished then st3
      else
        let live2 :=
          { live1 with status := .waiting, token := none, game_port := none,
                       game_proc := none }
        let st4 :=
          { st3 with live := some live2,
                     room := st3.room.map (fun r => { r with status := .waiting }),
                     gameReadyBroadcasts := st3.gameReadyBroadcasts + 1 }
        pushAll st4 live2.players (fun u =>
          .game_ready u (match result with
            | some r => if r.reason = "" then "finished" else r.reason
            | none => ""))

/-- `_handle_room_leave` (lobby_server.py lines 515-545); `sessRoom` is
the leaving session's `room_id`. -/
def room_leave_inner (st : LState) (pid : Nat) (sessRoom : Option Nat)
    (force : Bool) : LState :=
  match sessRoom with
  | none => st
  | some _rid =>
    match ensure_room_live st with
    | (liveOpt, st1) =>
      if !force &&
          (match liveOpt with
           | some l => l.status == RStatus.playing
           | none => false) then st1
      else
        -- Room.remove_member
        let st2 :=
          { st1 with room := st1.room.map (fun r =>
              { r with members := r.members.filter (fun m => m.1 ≠ pid) }) }
        match liveOpt with
        | none => setSessRoom st2 pid none
        | some live =>
          let players' := live.players.filter (fun u => u ≠ pid)
          let live1 := { live with players := players' }
          let st3 := { st2 with live := some live1 }
          let st4 :=
            if players' ≠ [] ∧ live1.host_player_id = pid then
              let newHost := players'.headD 0
              let stH :=
                { st3 with
                  live := some { live1 with host_player_id := newHost },
                  room := st3.room.map (fun r =>
                    { r with hostPlayerId := newHost }) }
              pushAll stH players' (fun u => .host_changed u newHost)
            else st3
          let st5 := pushAll st4 players' (fun u => .player_left u pid)
          let st6 :=
            if players' = [] then
              -- Room.delete_if_empty (only when the store-side member list
              -- is empty) and ROOMS.pop
              { st5 with
                room := match st5.room with
                  | some r => if r.members = [] then none else some r
                  | none => none,
                live := none }
            else st5
          setSessRoom st6 pid none

/-- `handle_room_leave` (lobby_server.py lines 548-558). -/
def handle_room_leave (st : LState) (pid : Nat) : LReply × LState :=
  match lookupA st.sessions pid with
  | none => (.err "not_logged_in", st)
  | some sroom =>
    match (match sroom with
           | some _ => ensure_room_live st
           | none => (none, st)) with
    | (liveOpt, st1) =>
      if (match liveOpt with
          | some l => l.status == RStatus.playing
          | none => false) then (.err "room_playing", st1)
      else (.ok "left", room_leave_inner st1 pid sroom false)

/-- `_cleanup_connection` (lobby_server.py lines 561-580) for a player
connection: pop the session maps, finish a running match, force-leave. -/
def cleanup_connection (st : LState) (pid : Nat) : LState :=
  match lookupA st.sessions pid with
  | none => st
  | some sroom =>
    let st1 := { st with sessions := delA st.sessions pid }
    match sroom with
    | none => st1
    | some _rid =>
      match ensure_room_live st1 with
      | (liveOpt, st2) =>
        let st3 :=
          if (match liveOpt with
              | some l => l.status == RStatus.playing
              | none => false) then
            finish_match st2 (some { reason := "disconnect", resultsStr := "[]" })
          else st2
        room_leave_inner st3 pid sroom true

/-- `handle_player_login` restricted to its session-map effect: a second
live connection for the same playerId is rejected (`already_online`). -/
def loginSess (st : LState) (pid : Nat) : LState :=
  if (lookupA st.sessions pid).isSome then st
  else { st with sessions := setA st.sessions pid none }

/-- Python `sorted`'s insertion of one element into a sorted list. -/
def insSorted (x : Nat) : List Nat → List Nat
  | [] => [x]
  | y :: ys => if x ≤ y then x :: y :: ys else y :: insSorted x ys

/-- Python `sorted(set(l))`. -/
def pySortedSet (l : List Nat) : List Nat := l.dedup.foldr insSorted []

/-- `handle_room_join` (lobby_server.py lines 465-512). `cfg` carries the
attached GameVersion's player bounds; `int(… or 2)` coerces a zero
`maxPlayers` to 2. -/
def handle_room_join (st : LState) (cfg : GVCfg) (pid : Nat)
    (roomId : Nat) : LReply × LState :=
  match lookupA st.sessions pid with
  | none => (.err "not_logged_in", st)
  | some (some _) => (.err "already_in_room", st)
  | some none =>
    if roomId = 0 then (.err "bad_room_id", st)
    else if roomId ≠ RID then (.err "no_such_room", st)
    else
      match ensure_room_live st with
      | (none, st1) => (.err "no_such_room", st1)
      | (some live, st1) =>
        if live.status == RStatus.playing then (.err "room_playing", st1)
        else
          -- refetch the authoritative member list from the store
          match st1.room with
          | none => (.err "no_such_room", st1)
          | some r =>
            let players := dbPlayers r
            let maxPlayers := if cfg.maxPlayers = 0 then 2 else cfg.maxPlayers
            if players.contains pid then
              (.ok "joined", setSessRoom st1 pid (some RID))
            else if players.length ≥ maxPlayers then (.err "room_full", st1)
            else
              -- Room.add_member (INSERT OR IGNORE, joinedAt := clock)
              let r' := { r with members := r.members ++ [(pid, st1.clock)] }
              let live' := { live with players := pySortedSet (players ++ [pid]) }
              let st2 :=
                { st1 with room := some r', live := some live',
                           clock := st1.clock + 1 }
              let st3 := setSessRoom st2 pid (some RID)
              let st4 := pushAll st3 (live'.players.filter (fun u => u ≠ pid))
                (fun u => .player_joined u pid)
              (.ok "joined", st4)

/-- `handle_room_create` (lobby_server.py lines 417-462). The game
lookup, delist check and latest-version lookup are modelled as succeeding
for the single modelled game; `Room.create` inserts the host as sole
member. -/
def handle_room_create (st : LState) (pid : Nat) : LReply × LState :=
  match lookupA st.sessions pid with
  | none => (.err "not_logged_in", st)
  | some (some _) => (.err "already_in_room", st)
  | some none =>
    match st.room with
    | some _ => (.err "room_create_failed", st)
    | none =>
      let r : DbRoom :=
        { hostPlayerId := pid, members := [(pid, st.clock)],
          status := .waiting }
      let st1 := { st with room := some r, clock := st.clock + 1 }
      match ensure_room_live st1 with
      | (liveOpt, st2) =>
        let st3 :=
          match liveOpt with
          | some _ => setSessRoom st2 pid (some RID)
          | none => st2
        (.ok "created", st3)

/-- `handle_room_start` (lobby_server.py lines 666-794). The GameVersion
lookup, manifest load, port probe, token mint and subprocess spawn have no
modelled side effect before success and are collapsed into `spawnOk`
(`false` stands for any of their error replies); `tok`/`port` supply the
minted token and the selected port. -/
def handle_room_start (st : LState) (cfg : GVCfg) (pid : Nat)
    (roomId : Nat) (spawnOk : Bool) (tok : String) (port : Nat) :
    LReply × LState :=
  match lookupA st.sessions pid with
  | none => (.err "not_logged_in", st)
  | some sroom =>
    let rid := if roomId ≠ 0 then roomId else sroom.getD 0
    if rid = 0 then (.err "bad_room_id", st)
    else if rid ≠ RID then (.err "no_such_room", st)
    else
      match ensure_room_live st with
      | (none, st1) => (.err "no_such_room", st1)
      | (some live, st1) =>
        if pid ≠ live.host_player_id then (.err "not_host", st1)
        else if live.status == RStatus.playing &&
            live.game_proc == some ProcState.running then
          (.err "already_playing", st1)
        else
          -- stale playing state: auto-finish so the host can restart
          let st2 :=
            if live.status == RStatus.playing then
              if live.game_proc == none then
                finish_match st1 (some { reason := "stale_state", resultsStr := "[]" })
              else
                finish_match st1 (some { reason := "process_exit", resultsStr := "[]" })
            else st1
          match st2.room with
          | none => (.err "no_such_room", st2)
          | some r =>
            let players := dbPlayers r
            let minPlayers := if cfg.minPlayers = 0 then 2 else cfg.minPlayers
            if players.length < minPlayers then
              (.err "need_more_players", st2)
            else if !spawnOk then (.err "spawn_failed", st2)
            else
              match ensure_room_live st2 with
              | (none, st3) => (.err "no_such_room", st3)
              | (some live2, st3) =>
                let live3 :=
                  { live2 with status := .playing, players := players,
                               token := some tok, game_port := some port,
                               game_proc := some .running }
                let st4 :=
                  { st3 with live := some live3,
                             room := st3.room.map (fun rr =>
                               { rr with status := .playing }) }
                let st5 := pushAll st4 players (fun u => .game_info u)
                (.ok "started", st5)

/-- `_watch_game` (lobby_server.py lines 652-663), fired when the child
process exits: the process is now exited; auto-finish unless a
`post_result` already closed the room. -/
def watch_game_fire (st : LState) : LState :=
  let st1 :=
    { st with live := st.live.map (fun l =>
        { l with game_proc := l.game_proc.map (fun _ => .exited) }) }
  match ensure_room_live st1 with
  | (none, st2) => st2
  | (some live, st2) =>
    if live.status != RStatus.playing then st2
    else finish_match st2 (some { reason := "process_exit", resultsStr := "[]" })

/-- `handle_post_result` (lobby_server.py lines 800-809): accepted without
auth from any connection; `_finish_match` on an unknown room id is a
no-op, and the reply is `ok` regardless. -/
def handle_post_result (st : LState) (roomId : Nat) (r : MatchResult) :
    LReply × LState :=
  if roomId = 0 then (.err "bad_room_id", st)
  else if roomId = RID then (.ok "posted", finish_match st (some r))
  else (.ok "posted", st)

/-- The match-settling events of claim C1 that can hit a room after a
successful `room_start`. -/
inductive FEvent
  | postResult (r : MatchResult)
  | childExit
  | disconnect (p : Nat)
deriving DecidableEq, Repr

def applyF (st : LState) : FEvent → LState
  | .postResult r => (handle_post_result st RID r).2
  | .childExit => watch_game_fire st
  | .disconnect p => cleanup_connection st p

def runF (st : LState) (evs : List FEvent) : LState := evs.foldl applyF st

/-- The room is settled: any cache entry is `waiting` with no token and no
process handle, and the store row (if still present) is `waiting`. -/
def ClosedRoom (st : LState) : Prop :=
  (∀ l, st.live = some l →
    l.status = .waiting ∧ l.token = none ∧ l.game_proc = none)
  ∧ (∀ r, st.room = some r → r.status = .waiting)

/-- The state right after a successful `room_start` broadcastng to the
member list `ps`: cache playing with token and a running child, store row
playing with the same members, and every member online in this room. -/
def PostStart (st : LState) (ps : List Nat) : Prop :=
  ∃ l r, st.live = some l ∧ st.room = some r ∧
    l.status = .playing ∧ l.token.isSome ∧ l.game_proc = some .running ∧
    l.players = ps ∧ dbPlayers r = ps ∧ r.status = .playing ∧
    ps ≠ [] ∧ ps.Nodup ∧
    (∀ u ∈ ps, lookupA st.sessions u = some (some RID))

/-- The `game_ready` pushes the first settling event delivers: every
member with a live session, with the reason the event carries (a
disconnecting player's session is popped before the broadcast). -/
def firstReadyEvents (ps : List Nat) : FEvent → List PEvent
  | .postResult r =>
    ps.map (fun u => .game_ready u (if r.reason = "" then "finished" else r.reason))
  | .childExit => ps.map (fun u => .game_ready u "process_exit")
  | .disconnect p =>
    (ps.filter (fun u => u ≠ p)).map (fun u => .game_ready u "disconnect")

/-- `(playerId, joinedAt)` member with the smallest `joinedAt` — the
"earliest-joined member" of the spec. -/
def earliestJoined (members : List (Nat × Nat)) : Option Nat :=
  (members.foldl (fun acc m =>
    match acc with
    | none => some m
    | some b => if m.2 < b.2 then some m else some b) none).map Prod.fst

/-- Room-engine operations for reachability (claim C7). -/
inductive Op
  | login (p : Nat)
  | createRoom (p : Nat)
  | joinRoom (p : Nat)
  | leaveRoom (p : Nat)
  | startRoom (p : Nat) (spawnOk : Bool)
  | post (r : MatchResult)
  | childExit
  | disconnect (p : Nat)
deriving Repr

def applyOp (cfg : GVCfg) (st : LState) : Op → LState
  | .login p => loginSess st p
  | .createRoom p => (handle_room_create st p).2
  | .joinRoom p => (handle_room_join st cfg p RID).2
  | .leaveRoom p => (handle_room_leave st p).2
  | .startRoom p ok => (handle_room_start st cfg p RID ok "tok" 12345).2
  | .post r => (handle_post_result st RID r).2
  | .childExit => watch_game_fire st
  | .disconnect p => cleanup_connection st p

def runOps (cfg : GVCfg) (st : LState) (ops : List Op) : LState :=
  ops.foldl (applyOp cfg) st

/-- The lobby's empty start state: no room, no sessions. -/
def init0 : LState :=
  { room := none, live := none, sessions := [], matchLogs := [],
    events := [], gameReadyBroadcasts := 0, clock := 0 }

/-- Fixture: a GameVersion allowing 2-4 players. -/
def cfgC6 : GVCfg := { minPlayers := 2, maxPlayers := 4 }

/-- Fixture: players 5, 7 and 3 logged in, none in a room. -/
def stSess573 : LState :=
  { init0 with sessions := [(5, none), (7, none), (3, none)] }

/-- Fixture: player 5 created the room, then 7 joined, then 3 joined. -/
def stPreLeave : LState :=
  runOps cfgC6 stSess573 [.createRoom 5, .joinRoom 7, .joinRoom 3]

/-- The cache entry of `stPreLeave`: the join handler stores
`sorted(set(players + [new]))`, so the cached order is ascending by
player id. -/
def lPreLeave : RoomLive :=
  { host_player_id := 5, players := [3, 5, 7], status := .waiting,
    token := none, game_port := none, game_proc := none }

/-- The store row of `stPreLeave`: members in joinedAt order. -/
def rPreLeave : DbRoom :=
  { hostPlayerId := 5, members := [(5, 0), (7, 1), (3, 2)],
    status := .waiting }

/-- C7 fixture: a GameVersion requiring exactly 2 players. -/
def cfgC7 : GVCfg := { minPlayers := 2, maxPlayers := 2 }

/-- C7 fixture: the store row of a full 2-member room. -/
def rC7 : DbRoom :=
  { hostPlayerId := 1, members := [(1, 0), (2, 1)],
    status := .waiting }

/-- C7 fixture: the cache entry matching `rC7`. -/
def liveC7 : RoomLive :=
  { host_player_id := 1, players := [1, 2], status := .waiting,
    token := none, game_port := none, game_proc := none }

/-- C7 fixture: the full room with host 1 in it, player 2 re-logged-in
(session no longer tied to the room) and player 3 logged in outside. -/
def stC7 : LState :=
  { room := some rC7, live := some liveC7,
    sessions := [(1, some RID), (2, none), (3, none)],
    matchLogs := [], events := [], gameReadyBroadcasts := 0, clock := 5 }

/-- C7 fixture: login/create/login/join reaching a 2-member room. -/
def opsC7 : List Op :=
  [.login 1, .createRoom 1, .login 2, .joinRoom 2]

/-- C1 fixture: the store row of a playing 2-member room. -/
def rC1 : DbRoom :=
  { hostPlayerId := 1, members := [(1, 0), (2, 1)],
    status := .playing }

/-- C1 fixture: the matching cache entry mid-match. -/
def liveC1 : RoomLive :=
  { host_player_id := 1, players := [1, 2], status := .playing,
    token := some "t", game_port := some 12345,
    game_proc := some .running }

/-- C1 fixture: a started match between players 1 and 2. -/
def stC1 : LState :=
  { room := some rC1, live := some liveC1,
    sessions := [(1, some RID), (2, some RID)],
    matchLogs := [], events := [], gameReadyBroadcasts := 0, clock := 9 }

end Lobby

namespace ReviewStore

open Assoc

/-- A `MatchLog` row as the lobby writes it: the store keeps only
`resultsJson`, always produced by `_finish_match`'s envelope from the
participant list and the serialized game `results`. -/
structure MLRow where
  gameFk : Nat
  participants : List Nat
  resultsStr : String
deriving DecidableEq, Repr

def mlJson (row : MLRow) : String :=
  Lobby.renderResultsEnvelope row.participants row.resultsStr

structure ReviewRow where
  gameFk : Nat
  playerId : Nat
  rating : Int
  comment : String
deriving DecidableEq, Repr

/-- Store state the review path touches. -/
structure StoreState where
  games : List DevServer.GameRow
  matchLogs : List MLRow
  reviews : List ReviewRow
deriving DecidableEq, Repr

/-- The sqlite `LIKE '%"userId": <pid>%'` pattern. -/
def likeUserId (pid : Nat) : String := "\"userId\": " ++ toString pid

/-- `LIKE '%pat%'` for a wildcard-free pattern: substring containment. -/
def containsSub (s pat : String) : Bool := decide (pat.toList <:+: s.toList)

/-- Store `MatchLog.has_player_played` (db_server.py lines 788-811): a
substring probe of `resultsJson` for `"userId": <pid>`. -/
def has_player_played (s : StoreState) (gid : String) (pid : Nat) :
    Except String Bool :=
  if gid = "" ∨ pid = 0 then .error "missing_fields"
  else
    match s.games.find? (fun g => g.gameId == gid) with
    | none => .error "not_found"
    | some g =>
      .ok (s.matchLogs.any (fun row =>
        row.gameFk == g.id && containsSub (mlJson row) (likeUserId pid)))

/-- Store `Review.upsert` (db_server.py lines 552-579): rating in `[1,5]`,
game must exist, upsert keyed on `(gameFk, playerId)`. -/
def review_upsert_db (s : StoreState) (gid : String) (pid : Nat)
    (rating : Int) (comment : String) : Except String StoreState :=
  if gid = "" ∨ pid = 0 ∨ rating < 1 ∨ rating > 5 then .error "bad_request"
  else
    match s.games.find? (fun g => g.gameId == gid) with
    | none => .error "not_found"
    | some g =>
      let row : ReviewRow :=
        { gameFk := g.id, playerId := pid, rating := rating,
          comment := Py.strip comment }
      if s.reviews.any (fun rv => rv.gameFk == g.id && rv.playerId == pid) then
        .ok { s with reviews := s.reviews.map (fun rv =>
          if rv.gameFk == g.id && rv.playerId == pid then row else rv) }
      else .ok { s with reviews := s.reviews ++ [row] }

/-- `handle_review_upsert` (lobby_server.py lines 815-840): enforce the
played-before predicate, then delegate the upsert to the store. -/
def handle_review_upsert (s : StoreState) (sess : Option Nat)
    (gameId0 : String) (rating : Int) (comment : String) :
    Lobby.LReply × StoreState :=
  match sess with
  | none => (.err "not_logged_in", s)
  | some pid =>
    let gid := Py.strip gameId0
    if gid = "" then (.err "missing_fields", s)
    else
      match has_player_played s gid pid with
      | .error e => (.err e, s)
      | .ok played =>
        if !played then (.err "not_played", s)
        else
          match review_upsert_db s gid pid rating comment with
          | .error e => (.err e, s)
          | .ok s' => (.ok "reviewed", s')

/-- Fixture for C8: game g1 has one MatchLog whose only participant is
player 53. -/
def sC8 : StoreState :=
  { games := [{ id := 1, gameId := "g1", name := "G", description := "d",
                developerId := 1, delisted := false }],
    matchLogs := [{ gameFk := 1, participants := [53], resultsStr := "[]" }],
    reviews := [] }

end ReviewStore

namespace DevServer

/-- The statement-level bundle used by the finish theorems: `up` is the
in-flight session under key `uid`, owned by `devId`, and the temp file
holds exactly the bytes fed to the hasher (they are appended together by
`handle_upload_chunk`). -/
def SessionOk (st : DevState) (uid : String) (up : UploadSession)
    (devId : Nat) : Prop :=
  Py.strip uid = uid ∧ Assoc.lookupA st.uploads uid = some up ∧
  up.developer_id = devId ∧
  Assoc.lookupA st.tmpFiles uid = some up.hasherBytes

/-- The archive and manifest checks of `handle_upload_finish` all pass:
the bytes are a zip with only safe entries, the manifest parses, its
`gameId`/`version` match the init declaration, both entrypoints exist. -/
def ArchiveAccepted (info : ArchiveInfo) (up : UploadSession)
    (m : ManifestView) : Prop :=
  (∃ es, info.entries = some es ∧ es.all (fun e => !unsafeZipEntryName e)) ∧
  info.manifest = some m ∧ m.gameId = up.game_id ∧ m.version = up.version ∧
  info.serverEntryExists = true ∧ info.clientEntryExists = true

/-- The state of an upload session exactly as `game_upload_init` creates
it: registered under `uid` for `devId`, nothing received, empty temp file,
declaring `n` bytes with (lowercased) digest `s`. -/
def FreshSession (st : DevState) (uid : String) (up : UploadSession)
    (devId : Nat) (n : Nat) (s : String) : Prop :=
  Py.strip uid = uid ∧ Assoc.lookupA st.uploads uid = some up ∧
  up.developer_id = devId ∧ up.received = 0 ∧ up.next_seq = 0 ∧
  up.hasherBytes = [] ∧ Assoc.lookupA st.tmpFiles uid = some [] ∧
  up.expected_size = n ∧ up.expected_sha256 = s

/-- Fixture: a published game owned by developer 1. -/
def gameG1 : GameRow :=
  { id := 1, gameId := "g1", name := "G", description := "d",
    developerId := 1, delisted := false }

/-- Fixture: an already-committed version 1.0.0 of g1. -/
def gvExisting : GameVersionRow :=
  { id := 1, gameFk := 1, version := "1.0.0", fileName := "f.zip",
    sizeBytes := 2, sha256 := "aa", clientType := "cli",
    minPlayers := 2, maxPlayers := 2 }

def stWithG1 : DevState :=
  { uploads := [], tmpFiles := [], pkgZips := [], extractedDirs := [],
    games := [gameG1], gameVersions := [], nextGameId := 2, nextGvId := 2 }

def stWithG1V : DevState := { stWithG1 with gameVersions := [gvExisting] }

def reqDup : InitReq :=
  { gameId := "g1", version := "1.0.0", fileName := "f.zip", sizeBytes := 2,
    sha256 := "AA", name := "", description := "" }

/-- Fixture: a fresh upload session (as `game_upload_init` creates it) for
g1 / 1.0.0 expecting 2 bytes with declared digest `aa`. -/
def sessU1 : UploadSession :=
  { upload_id := "u1", developer_id := 1, game_id := "g1",
    version := "1.0.0", file_name := "f.zip", expected_size := 2,
    expected_sha256 := "aa", auto_created_game := false, received := 0,
    next_seq := 0, hasherBytes := [] }

/-- The same session after both bytes `[7, 8]` were received. -/
def sessU1Full : UploadSession :=
  { sessU1 with received := 2, next_seq := 2, hasherBytes := [7, 8] }

def stFreshU1 : DevState :=
  { stWithG1 with uploads := [("u1", sessU1)], tmpFiles := [("u1", [])] }

def stU1Full : DevState :=
  { stWithG1 with uploads := [("u1", sessU1Full)], tmpFiles := [("u1", [7, 8])] }

/-- Toy digest for concrete runs: `aa` exactly on `[7, 8]`. -/
def hashT (bs : List Nat) : String := if bs = [7, 8] then "aa" else "zz"

def archOkG1 : ArchiveInfo :=
  { entries := some ["manifest.json", "server.py", "client.py"],
    manifest := some { gameId := "g1", version := "1.0.0",
                       clientType := "cli", minPlayers := 2, maxPlayers := 2 },
    manifestErr := "", serverEntryExists := true, clientEntryExists := true }

def archEvil : ArchiveInfo :=
  { archOkG1 with entries := some ["../evil", "manifest.json"] }

end DevServer

theorem Framing.unpack_pack (n : Nat) (h : n ≤ Framing.MAX_FRAME) :
    Framing.unpackHdr (n / 2 ^ 24 % 256) (n / 2 ^ 16 % 256) (n / 2 ^ 8 % 256)
      (n % 256) = n := by
  unfold Framing.unpackHdr Framing.MAX_FRAME at *
  omega

/-- C9: for any payload `b` with `1 ≤ |b| ≤ 65536`, decoding the encoded
frame yields `b`; encoding rejects `|b| = 0` and `|b| > 65536`
(FramingError); a received header whose length field is `0` or exceeds
`65536` is a protocol error; a stream that ends before the 4 header bytes,
or before the full body, is reported as closed (`None`). -/
theorem claim_C9_framing_roundtrip (b : List Nat) (hlo : 1 ≤ b.length)
    (hhi : b.length ≤ 65536) :
    (∀ enc, Framing.send_frame b = some enc → Framing.recv_frame enc = .frame b)
    ∧ (∀ b' : List Nat, b'.length = 0 ∨ b'.length > 65536 →
        Framing.send_frame b' = none)
    ∧ (∀ b0 b1 b2 b3 rest, (Framing.unpackHdr b0 b1 b2 b3 = 0 ∨
          Framing.unpackHdr b0 b1 b2 b3 > 65536) →
        Framing.recv_frame (b0 :: b1 :: b2 :: b3 :: rest) = .protoError)
    ∧ (∀ s : List Nat, s.length < 4 → Framing.recv_frame s = .closed)
    ∧ (∀ b0 b1 b2 b3 rest, 0 < Framing.unpackHdr b0 b1 b2 b3 →
        Framing.unpackHdr b0 b1 b2 b3 ≤ 65536 →
        rest.length < Framing.unpackHdr b0 b1 b2 b3 →
        Framing.recv_frame (b0 :: b1 :: b2 :: b3 :: rest) = .closed) := by
  have hmax : Framing.MAX_FRAME = 65536 := by norm_num [Framing.MAX_FRAME]
  refine ⟨?_, ?_, ?_, ?_, ?_⟩
  · intro enc henc
    unfold Framing.send_frame at henc
    rw [if_neg (by omega)] at henc
    cases henc
    unfold Framing.recv_frame Framing.packHdr
    simp only [List.cons_append, List.nil_append]
    rw [Framing.unpack_pack b.length (by omega)]
    rw [if_neg (by omega), if_neg (by simp)]
    simp
  · intro b' hb'
    unfold Framing.send_frame
    rw [if_pos (by omega)]
  · intro b0 b1 b2 b3 rest hlen
    unfold Framing.recv_frame
    simp only
    rw [if_pos (by omega)]
  · intro s hs
    match s, hs with
    | [], _ => rfl
    | [_], _ => rfl
    | [_, _], _ => rfl
    | [_, _, _], _ => rfl
    | _ :: _ :: _ :: _ :: _, hs => simp at hs; omega
  · intro b0 b1 b2 b3 rest h1 h2 h3
    unfold Framing.recv_frame
    simp only
    rw [if_neg (by omega), if_pos h3]

/-- Witness for C9 at the concrete payload `[42]`. -/
theorem claim_C9_framing_roundtrip_witness :
    Framing.recv_frame [0, 0, 0, 1, 42] = .frame [42] := by
  have h := (claim_C9_framing_roundtrip [42] (by decide) (by decide)).1
  exact h _ (by decide)

theorem Assoc.lookup_setA {α β : Type} [DecidableEq α]
    (l : List (α × β)) (k : α) (v : β) :
    Assoc.lookupA (Assoc.setA l k v) k = some v := by
  induction l with
  | nil => simp [Assoc.setA, Assoc.lookupA]
  | cons h t ih =>
    by_cases hk : h.1 = k
    · simp [Assoc.setA, Assoc.lookupA, hk]
    · simp [Assoc.setA, Assoc.lookupA, hk, ih]

theorem Assoc.lookup_setA_ne {α β : Type} [DecidableEq α]
    (l : List (α × β)) (k k' : α) (v : β) (h : k ≠ k') :
    Assoc.lookupA (Assoc.setA l k v) k' = Assoc.lookupA l k' := by
  induction l with
  | nil => simp [Assoc.setA, Assoc.lookupA, h]
  | cons hd t ih =>
    by_cases hk : hd.1 = k
    · simp [Assoc.setA, Assoc.lookupA, hk, h]
    · simp [Assoc.setA, Assoc.lookupA, hk, ih]

theorem Assoc.lookup_delA {α β : Type} [DecidableEq α]
    (l : List (α × β)) (k : α) :
    Assoc.lookupA (Assoc.delA l k) k = none := by
  induction l with
  | nil => simp [Assoc.delA, Assoc.lookupA]
  | cons hd t ih =>
    by_cases hk : hd.1 = k
    · simp [Assoc.delA, hk, ih]
    · simp [Assoc.delA, Assoc.lookupA, hk, ih]

theorem Assoc.lookup_delA_ne {α β : Type} [DecidableEq α]
    (l : List (α × β)) (k k' : α) (h : k ≠ k') :
    Assoc.lookupA (Assoc.delA l k) k' = Assoc.lookupA l k' := by
  induction l with
  | nil => simp [Assoc.delA]
  | cons hd t ih =>
    by_cases hk : hd.1 = k
    · have hne : hd.1 ≠ k' := by rw [hk]; exact h
      simp [Assoc.delA, Assoc.lookupA, hk, ih, hne, h]
    · simp [Assoc.delA, Assoc.lookupA, hk, ih]

/-- C10: a logged-in player whose session is in no room gets a success
reply (`{ok:true, left:true}`, modelled `.ok "left"`) from `room_leave`,
and the whole lobby state — sessions, room cache, store — is unchanged. -/
theorem claim_C10_room_leave_without_room (st : Lobby.LState) (pid : Nat)
    (h : Assoc.lookupA st.sessions pid = some none) :
    Lobby.handle_room_leave st pid = (.ok "left", st) := by
  simp [Lobby.handle_room_leave, h, Lobby.room_leave_inner]

/-- Witness for C10: player 9 is logged in with no room. -/
theorem claim_C10_room_leave_without_room_witness :
    Lobby.handle_room_leave { Lobby.init0 with sessions := [(9, none)] } 9 =
      (.ok "left", { Lobby.init0 with sessions := [(9, none)] }) :=
  claim_C10_room_leave_without_room _ 9 (by decide)

theorem DevServer.chunk_err_bad_seq (st : DevServer.DevState) (uid : String)
    (up : DevServer.UploadSession) (devId : Nat) (seq : Int)
    (d : DevServer.B64) (htr : Py.strip uid = uid)
    (hup : Assoc.lookupA st.uploads uid = some up)
    (hdev : up.developer_id = devId) (hseq : seq ≠ (up.next_seq : Int)) :
    DevServer.handle_upload_chunk (some devId) uid seq d st =
      (.err "bad_seq", st) := by
  simp [DevServer.handle_upload_chunk, htr, hup, hdev, hseq]

theorem DevServer.chunk_err_bad_base64 (st : DevServer.DevState)
    (uid : String) (up : DevServer.UploadSession) (devId : Nat)
    (htr : Py.strip uid = uid) (hup : Assoc.lookupA st.uploads uid = some up)
    (hdev : up.developer_id = devId) :
    DevServer.handle_upload_chunk (some devId) uid (up.next_seq : Int)
      .invalid st = (.err "bad_base64", st) := by
  simp [DevServer.handle_upload_chunk, htr, hup, hdev]

theorem DevServer.chunk_err_empty (st : DevServer.DevState) (uid : String)
    (up : DevServer.UploadSession) (devId : Nat) (htr : Py.strip uid = uid)
    (hup : Assoc.lookupA st.uploads uid = some up)
    (hdev : up.developer_id = devId) :
    DevServer.handle_upload_chunk (some devId) uid (up.next_seq : Int)
      (.bytes []) st = (.err "empty_chunk", st) := by
  simp [DevServer.handle_upload_chunk, htr, hup, hdev]

theorem DevServer.chunk_err_too_large (st : DevServer.DevState)
    (uid : String) (up : DevServer.UploadSession) (devId : Nat)
    (chunk : List Nat) (htr : Py.strip uid = uid)
    (hup : Assoc.lookupA st.uploads uid = some up)
    (hdev : up.developer_id = devId) (hne : chunk ≠ [])
    (hbig : up.received + chunk.length > up.expected_size) :
    DevServer.handle_upload_chunk (some devId) uid (up.next_seq : Int)
      (.bytes chunk) st = (.err "too_large", st) := by
  simp [DevServer.handle_upload_chunk, htr, hup, hdev, hne, hbig]

theorem DevServer.finish_err_size_mismatch (st : DevServer.DevState)
    (uid : String) (up : DevServer.UploadSession) (devId : Nat)
    (hash : List Nat → String) (archiveOf : List Nat → DevServer.ArchiveInfo)
    (htr : Py.strip uid = uid) (hup : Assoc.lookupA st.uploads uid = some up)
    (hdev : up.developer_id = devId)
    (hsz : up.received ≠ up.expected_size) :
    DevServer.handle_upload_finish (some devId) uid hash archiveOf st =
      (.err "size_mismatch", st) := by
  simp [DevServer.handle_upload_finish, htr, hup, hdev, hsz]

theorem DevServer.finish_err_hash_mismatch (st : DevServer.DevState)
    (uid : String) (up : DevServer.UploadSession) (devId : Nat)
    (hash : List Nat → String) (archiveOf : List Nat → DevServer.ArchiveInfo)
    (htr : Py.strip uid = uid) (hup : Assoc.lookupA st.uploads uid = some up)
    (hdev : up.developer_id = devId)
    (hsz : up.received = up.expected_size)
    (hh : Py.lower (hash up.hasherBytes) ≠ up.expected_sha256) :
    DevServer.handle_upload_finish (some devId) uid hash archiveOf st =
      (.err "hash_mismatch", st) := by
  simp [DevServer.handle_upload_finish, htr, hup, hdev, hsz, hh]

theorem DevServer.finish_unsafe_entry (st : DevServer.DevState)
    (uid : String) (up : DevServer.UploadSession) (devId : Nat)
    (hash : List Nat → String) (archiveOf : List Nat → DevServer.ArchiveInfo)
    (es : List String) (htr : Py.strip uid = uid)
    (hup : Assoc.lookupA st.uploads uid = some up)
    (hdev : up.developer_id = devId)
    (hsz : up.received = up.expected_size)
    (hh : Py.lower (hash up.hasherBytes) = up.expected_sha256)
    (htmp : Assoc.lookupA st.tmpFiles uid = some up.hasherBytes)
    (hes : (archiveOf up.hasherBytes).entries = some es)
    (hbad : es.any DevServer.unsafeZipEntryName = true) :
    DevServer.handle_upload_finish (some devId) uid hash archiveOf st =
      (.err "extract_failed:unsafe_zip_entry",
       { st with tmpFiles := Assoc.delA st.tmpFiles uid,
                 pkgZips := Assoc.setA st.pkgZips (up.game_id, up.version)
                   up.hasherBytes,
                 extractedDirs := Assoc.setA
                   (Assoc.delA st.extractedDirs (up.game_id, up.version))
                   (up.game_id, up.version) [] }) := by
  simp [DevServer.handle_upload_finish, htr, hup, hdev, hsz, hh, htmp, hes,
    hbad]

theorem DevServer.finish_err_version_exists (st : DevServer.DevState)
    (uid : String) (up : DevServer.UploadSession) (devId : Nat)
    (hash : List Nat → String) (archiveOf : List Nat → DevServer.ArchiveInfo)
    (m : DevServer.ManifestView) (g : DevServer.GameRow)
    (htr : Py.strip uid = uid)
    (hup : Assoc.lookupA st.uploads uid = some up)
    (hdev : up.developer_id = devId)
    (hsz : up.received = up.expected_size)
    (hh : Py.lower (hash up.hasherBytes) = up.expected_sha256)
    (htmp : Assoc.lookupA st.tmpFiles uid = some up.hasherBytes)
    (harch : DevServer.ArchiveAccepted (archiveOf up.hasherBytes) up m)
    (hg : DevServer.getGameByGameId st up.game_id = some g)
    (hgid : g.id ≠ 0) (hver : up.version ≠ "")
    (hdup : st.gameVersions.any
      (fun gv => gv.gameFk == g.id && gv.version == up.version) = true) :
    (DevServer.handle_upload_finish (some devId) uid hash archiveOf st).1 =
      .err "version_exists"
    ∧ (DevServer.handle_upload_finish (some devId) uid hash archiveOf
        st).2.gameVersions = st.gameVersions
    ∧ Assoc.lookupA (DevServer.handle_upload_finish (some devId) uid hash
        archiveOf st).2.uploads uid = some up := by
  obtain ⟨⟨es, hes, hsafe⟩, hman, hgidm, hverm, hsrv, hcli⟩ := harch
  have hnobad : es.any DevServer.unsafeZipEntryName = false := by
    rw [List.any_eq_false]
    intro e he
    have := (List.all_eq_true.mp hsafe) e he
    simpa using this
  have hg2 : DevServer.getGameByGameId
      { st with tmpFiles := Assoc.delA st.tmpFiles uid,
                pkgZips := Assoc.setA st.pkgZips (up.game_id, up.version)
                  up.hasherBytes,
                extractedDirs := Assoc.setA
                  (Assoc.setA
                    (Assoc.delA st.extractedDirs (up.game_id, up.version))
                    (up.game_id, up.version) [])
                  (up.game_id, up.version) es } up.game_id = some g := by
    simpa [DevServer.getGameByGameId] using hg
  simp [DevServer.handle_upload_finish, htr, hup, hdev, hsz, hh, htmp, hes,
    hnobad, hman, hgidm, hverm, hsrv, hcli, hg2, hgid,
    DevServer.db_game_version_create, hver, hdup]

theorem DevServer.finish_success (st : DevServer.DevState) (uid : String)
    (up : DevServer.UploadSession) (devId : Nat) (hash : List Nat → String)
    (archiveOf : List Nat → DevServer.ArchiveInfo)
    (m : DevServer.ManifestView) (g : DevServer.GameRow)
    (htr : Py.strip uid = uid)
    (hup : Assoc.lookupA st.uploads uid = some up)
    (hdev : up.developer_id = devId)
    (hsz : up.received = up.expected_size)
    (hh : Py.lower (hash up.hasherBytes) = up.expected_sha256)
    (htmp : Assoc.lookupA st.tmpFiles uid = some up.hasherBytes)
    (harch : DevServer.ArchiveAccepted (archiveOf up.hasherBytes) up m)
    (hg : DevServer.getGameByGameId st up.game_id = some g)
    (hgid : g.id ≠ 0) (hver : up.version ≠ "")
    (hnew : st.gameVersions.any
      (fun gv => gv.gameFk == g.id && gv.version == up.version) = false) :
    (DevServer.handle_upload_finish (some devId) uid hash archiveOf st).1 =
      .ok st.nextGvId
    ∧ (DevServer.handle_upload_finish (some devId) uid hash archiveOf
        st).2.gameVersions = st.gameVersions ++
        [{ id := st.nextGvId, gameFk := g.id, version := up.version,
           fileName := up.file_name, sizeBytes := up.expected_size,
           sha256 := up.expected_sha256, clientType := m.clientType,
           minPlayers := m.minPlayers, maxPlayers := m.maxPlayers }]
    ∧ Assoc.lookupA (DevServer.handle_upload_finish (some devId) uid hash
        archiveOf st).2.uploads uid = none := by
  obtain ⟨⟨es, hes, hsafe⟩, hman, hgidm, hverm, hsrv, hcli⟩ := harch
  have hnobad : es.any DevServer.unsafeZipEntryName = false := by
    rw [List.any_eq_false]
    intro e he
    have := (List.all_eq_true.mp hsafe) e he
    simpa using this
  have hg2 : DevServer.getGameByGameId
      { st with tmpFiles := Assoc.delA st.tmpFiles uid,
                pkgZips := Assoc.setA st.pkgZips (up.game_id, up.version)
                  up.hasherBytes,
                extractedDirs := Assoc.setA
                  (Assoc.setA
                    (Assoc.delA st.extractedDirs (up.game_id, up.version))
                    (up.game_id, up.version) [])
                  (up.game_id, up.version) es } up.game_id = some g := by
    simpa [DevServer.getGameByGameId] using hg
  simp [DevServer.handle_upload_finish, htr, hup, hdev, hsz, hh, htmp, hes,
    hnobad, hman, hgidm, hverm, hsrv, hcli, hg2, hgid,
    DevServer.db_game_version_create, hver, hnew, Assoc.lookup_delA]

theorem DevServer.runChunks_spec (devId : Nat) (uid : String)
    (cs : List (List Nat)) (st : DevServer.DevState)
    (up : DevServer.UploadSession) (htr : Py.strip uid = uid)
    (hup : Assoc.lookupA st.uploads uid = some up)
    (hdev : up.developer_id = devId) (hne : ∀ c ∈ cs, c ≠ [])
    (hsz : up.received + (cs.map List.length).sum ≤ up.expected_size)
    (htmp : Assoc.lookupA st.tmpFiles uid = some up.hasherBytes) :
    Assoc.lookupA
        (DevServer.runChunks (some devId) uid cs up.next_seq st).uploads uid =
      some { up with received := up.received + (cs.map List.length).sum,
                     next_seq := up.next_seq + cs.length,
                     hasherBytes := up.hasherBytes ++ cs.flatten }
    ∧ Assoc.lookupA
        (DevServer.runChunks (some devId) uid cs up.next_seq st).tmpFiles uid =
      some (up.hasherBytes ++ cs.flatten)
    ∧ (DevServer.runChunks (some devId) uid cs up.next_seq st).games = st.games
    ∧ (DevServer.runChunks (some devId) uid cs up.next_seq st).gameVersions =
      st.gameVersions
    ∧ (DevServer.runChunks (some devId) uid cs up.next_seq st).nextGvId =
      st.nextGvId := by
  induction cs generalizing st up with
  | nil => simp [DevServer.runChunks, hup, htmp]
  | cons c cs ih =>
    have hc : c ≠ [] := hne c (List.mem_cons_self c cs)
    have hfit : ¬ up.received + c.length > up.expected_size := by
      simp only [List.map_cons, List.sum_cons] at hsz
      omega
    have hstep : (DevServer.handle_upload_chunk (some devId) uid
        (up.next_seq : Int) (.bytes c) st).2 =
        { st with
          uploads := Assoc.setA st.uploads uid
            { up with received := up.received + c.length,
                      next_seq := up.next_seq + 1,
                      hasherBytes := up.hasherBytes ++ c },
          tmpFiles := Assoc.setA st.tmpFiles uid (up.hasherBytes ++ c) } := by
      simp [DevServer.handle_upload_chunk, htr, hup, hdev, hc, hfit,
        DevServer.appendFile, htmp]
    have ihx := ih
      { st with
        uploads := Assoc.setA st.uploads uid
          { up with received := up.received + c.length,
                    next_seq := up.next_seq + 1,
                    hasherBytes := up.hasherBytes ++ c },
        tmpFiles := Assoc.setA st.tmpFiles uid (up.hasherBytes ++ c) }
      { up with received := up.received + c.length,
                next_seq := up.next_seq + 1,
                hasherBytes := up.hasherBytes ++ c }
      (by simpa using Assoc.lookup_setA st.uploads uid _)
      (by simpa using hdev)
      (fun d hd => hne d (List.mem_cons_of_mem c hd))
      (by simp only [List.map_cons, List.sum_cons] at hsz; simpa using by omega)
      (by simpa using Assoc.lookup_setA st.tmpFiles uid _)
    simp only [DevServer.runChunks, hstep] at *
    refine ⟨?_, ?_, ihx.2.2.1, ihx.2.2.2.1, ihx.2.2.2.2⟩
    · rw [ihx.1]
      simp [List.map_cons, List.sum_cons, List.append_assoc]
      omega
    · rw [ihx.2.1]
      simp [List.append_assoc]

/-- C4 (amended): the claim is false on the code — no failure path removes
the upload session or deletes its temp file. A failing `game_upload_chunk`
(`bad_seq`, `bad_base64`, `empty_chunk`, `too_large`) and a
`game_upload_finish` failing with `size_mismatch` or `hash_mismatch`
return the error with the developer-server state completely unchanged: the
upload session stays in the in-flight table, its temp file stays on disk,
and the Game row created at init time is kept (nothing is deleted). -/
theorem claim_C4_failure_keeps_session_and_temp :
    (∀ st uid (up : DevServer.UploadSession) devId (seq : Int) d,
      Py.strip uid = uid → Assoc.lookupA st.uploads uid = some up →
      up.developer_id = devId → seq ≠ (up.next_seq : Int) →
      DevServer.handle_upload_chunk (some devId) uid seq d st =
        (.err "bad_seq", st))
    ∧ (∀ st uid (up : DevServer.UploadSession) devId,
      Py.strip uid = uid → Assoc.lookupA st.uploads uid = some up →
      up.developer_id = devId →
      DevServer.handle_upload_chunk (some devId) uid (up.next_seq : Int)
        .invalid st = (.err "bad_base64", st))
    ∧ (∀ st uid (up : DevServer.UploadSession) devId,
      Py.strip uid = uid → Assoc.lookupA st.uploads uid = some up →
      up.developer_id = devId →
      DevServer.handle_upload_chunk (some devId) uid (up.next_seq : Int)
        (.bytes []) st = (.err "empty_chunk", st))
    ∧ (∀ st uid (up : DevServer.UploadSession) devId (chunk : List Nat),
      Py.strip uid = uid → Assoc.lookupA st.uploads uid = some up →
      up.developer_id = devId → chunk ≠ [] →
      up.received + chunk.length > up.expected_size →
      DevServer.handle_upload_chunk (some devId) uid (up.next_seq : Int)
        (.bytes chunk) st = (.err "too_large", st))
    ∧ (∀ st uid (up : DevServer.UploadSession) devId hash archiveOf,
      Py.strip uid = uid → Assoc.lookupA st.uploads uid = some up →
      up.developer_id = devId → up.received ≠ up.expected_size →
      DevServer.handle_upload_finish (some devId) uid hash archiveOf st =
        (.err "size_mismatch", st))
    ∧ (∀ st uid (up : DevServer.UploadSession) devId hash archiveOf,
      Py.strip uid = uid → Assoc.lookupA st.uploads uid = some up →
      up.developer_id = devId → up.received = up.expected_size →
      Py.lower (hash up.hasherBytes) ≠ up.expected_sha256 →
      DevServer.handle_upload_finish (some devId) uid hash archiveOf st =
        (.err "hash_mismatch", st)) := by
  refine ⟨?_, ?_, ?_, ?_, ?_, ?_⟩
  · exact fun st uid up devId seq d htr hup hdev hseq =>
      DevServer.chunk_err_bad_seq st uid up devId seq d htr hup hdev hseq
  · exact fun st uid up devId htr hup hdev =>
      DevServer.chunk_err_bad_base64 st uid up devId htr hup hdev
  · exact fun st uid up devId htr hup hdev =>
      DevServer.chunk_err_empty st uid up devId htr hup hdev
  · exact fun st uid up devId chunk htr hup hdev hne hbig =>
      DevServer.chunk_err_too_large st uid up devId chunk htr hup hdev hne hbig
  · exact fun st uid up devId hash archiveOf htr hup hdev hsz =>
      DevServer.finish_err_size_mismatch st uid up devId hash archiveOf htr
        hup hdev hsz
  · exact fun st uid up devId hash archiveOf htr hup hdev hsz hh =>
      DevServer.finish_err_hash_mismatch st uid up devId hash archiveOf htr
        hup hdev hsz hh

/-- C4 counterexample: after a failing chunk (`bad_seq`), the upload
session is still in the in-flight table and its temp file still exists —
the claim's "removed from the upload table and its temp file is deleted"
is false at this input. -/
theorem claim_C4_counterexample :
    (DevServer.handle_upload_chunk (some 1) "u1" 5 (.bytes [7])
      DevServer.stFreshU1).1 = .err "bad_seq"
    ∧ Assoc.lookupA (DevServer.handle_upload_chunk (some 1) "u1" 5
        (.bytes [7]) DevServer.stFreshU1).2.uploads "u1" =
      some DevServer.sessU1
    ∧ Assoc.lookupA (DevServer.handle_upload_chunk (some 1) "u1" 5
        (.bytes [7]) DevServer.stFreshU1).2.tmpFiles "u1" = some [] := by
  decide

/-- Witness for C4 at a concrete failing finish (`size_mismatch`). -/
theorem claim_C4_failure_keeps_session_and_temp_witness :
    DevServer.handle_upload_finish (some 1) "u1" DevServer.hashT
      (fun _ => DevServer.archOkG1) DevServer.stFreshU1 =
      (.err "size_mismatch", DevServer.stFreshU1) := by
  have h := claim_C4_failure_keeps_session_and_temp
  exact h.2.2.2.2.1 DevServer.stFreshU1 "u1" DevServer.sessU1 1 DevServer.hashT
    (fun _ => DevServer.archOkG1) (by decide) (by decide) (by decide)
    (by decide)

/-- C5 (amended): the claim is false on the code — `game_upload_init`
never checks whether the declared version already exists. Init targeting a
game owned by the session succeeds (returns an uploadId and creates an
upload session) even when the declared version already exists as a
GameVersion of that game; the duplicate is rejected only at
`game_upload_finish`, where the store's `(gameRef, version)` uniqueness
raises `version_exists` and no GameVersion row is created. -/
theorem claim_C5_version_checked_only_at_finish :
    (∀ st devId (req : DevServer.InitReq) uid sfx fb
      (g : DevServer.GameRow),
      DevServer.getGameByGameId st (Py.strip req.gameId) = some g →
      g.developerId = devId →
      Py.strip req.gameId ≠ "" → Py.strip req.version ≠ "" →
      DevServer.versionOk (Py.strip req.version) = true →
      DevServer.gameIdOk (Py.strip req.gameId) = true →
      0 < req.sizeBytes → Py.lower (Py.strip req.sha256) ≠ "" →
      (DevServer.handle_upload_init (some devId) req uid sfx fb st).1 =
        .ok uid (Py.strip req.gameId) false
      ∧ Assoc.lookupA (DevServer.handle_upload_init (some devId) req uid sfx
          fb st).2.uploads uid ≠ none)
    ∧ (∀ st uid (up : DevServer.UploadSession) devId hash archiveOf
      (m : DevServer.ManifestView) (g : DevServer.GameRow),
      Py.strip uid = uid →
      Assoc.lookupA st.uploads uid = some up →
      up.developer_id = devId →
      up.received = up.expected_size →
      Py.lower (hash up.hasherBytes) = up.expected_sha256 →
      Assoc.lookupA st.tmpFiles uid = some up.hasherBytes →
      DevServer.ArchiveAccepted (archiveOf up.hasherBytes) up m →
      DevServer.getGameByGameId st up.game_id = some g →
      g.id ≠ 0 → up.version ≠ "" →
      st.gameVersions.any
        (fun gv => gv.gameFk == g.id && gv.version == up.version) = true →
      (DevServer.handle_upload_finish (some devId) uid hash archiveOf
          st).1 = .err "version_exists"
      ∧ (DevServer.handle_upload_finish (some devId) uid hash archiveOf
          st).2.gameVersions = st.gameVersions) := by
  constructor
  · intro st devId req uid sfx fb g hg hown hgid hver hvok hgok hsz hsha
    have hnv : ¬ (Py.strip req.version = "" ∨ req.sizeBytes ≤ 0 ∨
        Py.lower (Py.strip req.sha256) = "") := by
      push_neg
      exact ⟨hver, by omega, hsha⟩
    constructor
    · simp [DevServer.handle_upload_init, hnv, hvok, hgok, hgid, hg, hown,
        DevServer.initFinishSession]
    · simp [DevServer.handle_upload_init, hnv, hvok, hgok, hgid, hg, hown,
        DevServer.initFinishSession, Assoc.lookup_setA]
  · intro st uid up devId hash archiveOf m g htr hup hdev hsz hh htmp harch
      hg hgid hver hdup
    have h := DevServer.finish_err_version_exists st uid up devId hash
      archiveOf m g htr hup hdev hsz hh htmp harch hg hgid hver hdup
    exact ⟨h.1, h.2.1⟩

/-- C5 counterexample: with version 1.0.0 of g1 already committed,
`game_upload_init` declaring the same version still succeeds, returning an
uploadId and creating an upload session — the claim's "the init request
fails" is false at this input. -/
theorem claim_C5_counterexample :
    (DevServer.handle_upload_init (some 1) DevServer.reqDup "uid1" [] "fb"
      DevServer.stWithG1V).1 = .ok "uid1" "g1" false
    ∧ Assoc.lookupA (DevServer.handle_upload_init (some 1) DevServer.reqDup
        "uid1" [] "fb" DevServer.stWithG1V).2.uploads "uid1" ≠ none
    ∧ DevServer.stWithG1V.gameVersions.any
        (fun gv => gv.gameFk == 1 && gv.version == "1.0.0") = true := by
  decide

/-- Witness for C5 at the concrete duplicate-version init. -/
theorem claim_C5_version_checked_only_at_finish_witness :
    (DevServer.handle_upload_init (some 1) DevServer.reqDup "u2" [] "fb"
      DevServer.stWithG1V).1 = .ok "u2" "g1" false
    ∧ Assoc.lookupA (DevServer.handle_upload_init (some 1) DevServer.reqDup
        "u2" [] "fb" DevServer.stWithG1V).2.uploads "u2" ≠ none := by
  have h := claim_C5_version_checked_only_at_finish
  exact h.1 DevServer.stWithG1V 1 DevServer.reqDup "u2" [] "fb"
    DevServer.gameG1 (by decide) (by decide) (by decide) (by decide)
    (by decide) (by decide) (by decide) (by decide)

/-- C3 (amended): the claim is false on the code in two respects. An
upload whose zip contains an entry whose path is absolute or contains `..`
makes `game_upload_finish` fail — but with error code
`extract_failed:unsafe_zip_entry` (the `ValueError("unsafe_zip_entry")` is
caught by the move/extract `try` and wrapped), not exactly
`unsafe_zip_entry`; and the package zip HAS already been moved under
`uploadRoot/<gameId>/<version>/package.zip` (plus an empty `extracted/`
directory created) before the entry check runs. No archive entry is
extracted, no GameVersion row is created, and the upload session and Game
rows are untouched. -/
theorem claim_C3_zip_traversal_rejection (st : DevServer.DevState)
    (uid : String) (up : DevServer.UploadSession) (devId : Nat)
    (hash : List Nat → String) (archiveOf : List Nat → DevServer.ArchiveInfo)
    (es : List String) (htr : Py.strip uid = uid)
    (hup : Assoc.lookupA st.uploads uid = some up)
    (hdev : up.developer_id = devId)
    (hsz : up.received = up.expected_size)
    (hh : Py.lower (hash up.hasherBytes) = up.expected_sha256)
    (htmp : Assoc.lookupA st.tmpFiles uid = some up.hasherBytes)
    (hes : (archiveOf up.hasherBytes).entries = some es)
    (hbad : es.any DevServer.unsafeZipEntryName = true) :
    (DevServer.handle_upload_finish (some devId) uid hash archiveOf st).1 =
      .err "extract_failed:unsafe_zip_entry"
    ∧ (DevServer.handle_upload_finish (some devId) uid hash archiveOf
        st).2.gameVersions = st.gameVersions
    ∧ Assoc.lookupA (DevServer.handle_upload_finish (some devId) uid hash
        archiveOf st).2.pkgZips (up.game_id, up.version) =
      some up.hasherBytes
    ∧ Assoc.lookupA (DevServer.handle_upload_finish (some devId) uid hash
        archiveOf st).2.extractedDirs (up.game_id, up.version) = some []
    ∧ (DevServer.handle_upload_finish (some devId) uid hash archiveOf
        st).2.uploads = st.uploads
    ∧ (DevServer.handle_upload_finish (some devId) uid hash archiveOf
        st).2.games = st.games := by
  have h := DevServer.finish_unsafe_entry st uid up devId hash archiveOf es
    htr hup hdev hsz hh htmp hes hbad
  rw [h]
  refine ⟨rfl, rfl, ?_, ?_, rfl, rfl⟩
  · exact Assoc.lookup_setA st.pkgZips (up.game_id, up.version) up.hasherBytes
  · exact Assoc.lookup_setA
      (Assoc.delA st.extractedDirs (up.game_id, up.version))
      (up.game_id, up.version) []

/-- C3 counterexample: with the uploaded bytes forming a zip containing
`../evil`, finish fails with `extract_failed:unsafe_zip_entry` — not the
claim's exact code `unsafe_zip_entry` — and the package zip has landed
under uploadRoot. -/
theorem claim_C3_counterexample :
    (DevServer.handle_upload_finish (some 1) "u1" DevServer.hashT
      (fun _ => DevServer.archEvil) DevServer.stU1Full).1 =
      .err "extract_failed:unsafe_zip_entry"
    ∧ (DevServer.handle_upload_finish (some 1) "u1" DevServer.hashT
        (fun _ => DevServer.archEvil) DevServer.stU1Full).1 ≠
      .err "unsafe_zip_entry"
    ∧ Assoc.lookupA (DevServer.handle_upload_finish (some 1) "u1"
        DevServer.hashT (fun _ => DevServer.archEvil)
        DevServer.stU1Full).2.pkgZips ("g1", "1.0.0") = some [7, 8] := by
  decide

/-- Witness for C3 at the concrete `../evil` archive. -/
theorem claim_C3_zip_traversal_rejection_witness :
    (DevServer.handle_upload_finish (some 1) "u1" DevServer.hashT
      (fun _ => DevServer.archEvil) DevServer.stU1Full).1 =
      .err "extract_failed:unsafe_zip_entry"
    ∧ (DevServer.handle_upload_finish (some 1) "u1" DevServer.hashT
        (fun _ => DevServer.archEvil) DevServer.stU1Full).2.gameVersions =
      DevServer.stU1Full.gameVersions := by
  have h := claim_C3_zip_traversal_rejection DevServer.stU1Full "u1"
    DevServer.sessU1Full 1 DevServer.hashT (fun _ => DevServer.archEvil)
    ["../evil", "manifest.json"] (by decide) (by decide) (by decide)
    (by decide) (by decide) (by decide) (by decide) (by decide)
  exact ⟨h.1, h.2.1⟩

theorem DevServer.runChunks_fresh (devId : Nat) (uid : String)
    (cs : List (List Nat)) (st : DevServer.DevState)
    (up : DevServer.UploadSession) (n : Nat) (s : String)
    (hf : DevServer.FreshSession st uid up devId n s)
    (hne : ∀ c ∈ cs, c ≠ []) (hle : cs.flatten.length ≤ n) :
    Assoc.lookupA
        (DevServer.runChunks (some devId) uid cs 0 st).uploads uid =
      some { up with received := cs.flatten.length, next_seq := cs.length,
                     hasherBytes := cs.flatten }
    ∧ Assoc.lookupA
        (DevServer.runChunks (some devId) uid cs 0 st).tmpFiles uid =
      some cs.flatten
    ∧ (DevServer.runChunks (some devId) uid cs 0 st).games = st.games
    ∧ (DevServer.runChunks (some devId) uid cs 0 st).gameVersions =
      st.gameVersions
    ∧ (DevServer.runChunks (some devId) uid cs 0 st).nextGvId =
      st.nextGvId := by
  obtain ⟨htr, hup, hdev, hr0, hs0, hb0, htmp, hexp, hsha⟩ := hf
  have htmp' : Assoc.lookupA st.tmpFiles uid = some up.hasherBytes := by
    rw [hb0]; exact htmp
  have hszOk : up.received + (cs.map List.length).sum ≤ up.expected_size := by
    rw [hr0, hexp, ← List.length_flatten]
    omega
  have hrun := DevServer.runChunks_spec devId uid cs st up htr hup hdev hne
    hszOk htmp'
  rw [hs0] at hrun
  refine ⟨?_, ?_, hrun.2.2.1, hrun.2.2.2.1, hrun.2.2.2.2⟩
  · rw [hrun.1, hr0, hb0]
    simp [List.length_flatten]
  · rw [hrun.2.1, hb0]
    simp

/-- C2: upload integrity, with SHA-256 kept abstract as `hash` (hexdigest
of a byte string; digests and the declared `sha256` are compared after
lowercasing both, i.e. case-insensitively — a "wrong byte" is modelled as
the delivered bytes having a digest different from the declared one).
A stream of nonempty chunks delivered with `seq = 0, 1, 2, …` whose
concatenation has exactly the declared `sizeBytes` and the declared
digest, over a valid safe archive whose manifest matches the declaration
and a not-yet-existing version, makes `game_upload_finish` succeed and
commit a GameVersion row. Each single perturbation fails with no
GameVersion row created: a digest mismatch fails `hash_mismatch`; a
skipped (or any wrong) `seq` is rejected `bad_seq`; a stream totalling
less than `sizeBytes` fails finish with `size_mismatch`; a chunk pushing
past `sizeBytes` is rejected `too_large`; a zip entry containing `..`
fails with `extract_failed:unsafe_zip_entry`. -/
theorem claim_C2_upload_integrity :
    (∀ st uid devId (cs : List (List Nat)) hash archiveOf
      (m : DevServer.ManifestView) (g : DevServer.GameRow)
      (up : DevServer.UploadSession) (n : Nat) (s : String),
      DevServer.FreshSession st uid up devId n s →
      (∀ c ∈ cs, c ≠ []) → cs.flatten.length = n →
      Py.lower (hash cs.flatten) = s →
      DevServer.ArchiveAccepted (archiveOf cs.flatten) up m →
      DevServer.getGameByGameId st up.game_id = some g →
      g.id ≠ 0 → up.version ≠ "" →
      st.gameVersions.any
        (fun gv => gv.gameFk == g.id && gv.version == up.version) = false →
      (DevServer.handle_upload_finish (some devId) uid hash archiveOf
          (DevServer.runChunks (some devId) uid cs 0 st)).1 = .ok st.nextGvId
      ∧ (DevServer.handle_upload_finish (some devId) uid hash archiveOf
          (DevServer.runChunks (some devId) uid cs 0 st)).2.gameVersions =
        st.gameVersions ++
          [{ id := st.nextGvId, gameFk := g.id, version := up.version,
             fileName := up.file_name, sizeBytes := n, sha256 := s,
             clientType := m.clientType, minPlayers := m.minPlayers,
             maxPlayers := m.maxPlayers }]
      ∧ Assoc.lookupA (DevServer.handle_upload_finish (some devId) uid hash
          archiveOf (DevServer.runChunks (some devId) uid cs 0
          st)).2.uploads uid = none)
    ∧ (∀ st uid devId (cs : List (List Nat)) hash archiveOf
      (up : DevServer.UploadSession) (n : Nat) (s : String),
      DevServer.FreshSession st uid up devId n s →
      (∀ c ∈ cs, c ≠ []) → cs.flatten.length = n →
      Py.lower (hash cs.flatten) ≠ s →
      (DevServer.handle_upload_finish (some devId) uid hash archiveOf
          (DevServer.runChunks (some devId) uid cs 0 st)).1 =
        .err "hash_mismatch"
      ∧ (DevServer.handle_upload_finish (some devId) uid hash archiveOf
          (DevServer.runChunks (some devId) uid cs 0 st)).2.gameVersions =
        st.gameVersions)
    ∧ (∀ st uid (up : DevServer.UploadSession) devId (seq : Int) d,
      Py.strip uid = uid → Assoc.lookupA st.uploads uid = some up →
      up.developer_id = devId → seq ≠ (up.next_seq : Int) →
      DevServer.handle_upload_chunk (some devId) uid seq d st =
        (.err "bad_seq", st))
    ∧ (∀ st uid devId (cs : List (List Nat)) hash archiveOf
      (up : DevServer.UploadSession) (n : Nat) (s : String),
      DevServer.FreshSession st uid up devId n s →
      (∀ c ∈ cs, c ≠ []) → cs.flatten.length < n →
      (DevServer.handle_upload_finish (some devId) uid hash archiveOf
          (DevServer.runChunks (some devId) uid cs 0 st)).1 =
        .err "size_mismatch"
      ∧ (DevServer.handle_upload_finish (some devId) uid hash archiveOf
          (DevServer.runChunks (some devId) uid cs 0 st)).2.gameVersions =
        st.gameVersions)
    ∧ (∀ st uid (up : DevServer.UploadSession) devId (chunk : List Nat),
      Py.strip uid = uid → Assoc.lookupA st.uploads uid = some up →
      up.developer_id = devId → chunk ≠ [] →
      up.received + chunk.length > up.expected_size →
      DevServer.handle_upload_chunk (some devId) uid (up.next_seq : Int)
        (.bytes chunk) st = (.err "too_large", st))
    ∧ (∀ st uid devId (cs : List (List Nat)) hash archiveOf
      (up : DevServer.UploadSession) (n : Nat) (s : String)
      (es : List String),
      DevServer.FreshSession st uid up devId n s →
      (∀ c ∈ cs, c ≠ []) → cs.flatten.length = n →
      Py.lower (hash cs.flatten) = s →
      (archiveOf cs.flatten).entries = some es →
      es.any DevServer.unsafeZipEntryName = true →
      (DevServer.handle_upload_finish (some devId) uid hash archiveOf
          (DevServer.runChunks (some devId) uid cs 0 st)).1 =
        .err "extract_failed:unsafe_zip_entry"
      ∧ (DevServer.handle_upload_finish (some devId) uid hash archiveOf
          (DevServer.runChunks (some devId) uid cs 0 st)).2.gameVersions =
        st.gameVersions) := by
  refine ⟨?_, ?_, ?_, ?_, ?_, ?_⟩
  · intro st uid devId cs hash archiveOf m g up n s hf hne hlen hhash harch
      hg hgid hver hnew
    obtain ⟨h1, h2, h3, h4, h5⟩ :=
      DevServer.runChunks_fresh devId uid cs st up n s hf hne (le_of_eq hlen)
    obtain ⟨htr, -, hdev, -, -, -, -, hexp, hsha⟩ := hf
    have hg1 : DevServer.getGameByGameId
        (DevServer.runChunks (some devId) uid cs 0 st) up.game_id = some g := by
      unfold DevServer.getGameByGameId at hg ⊢
      rw [h3]; exact hg
    have hnew1 : (DevServer.runChunks (some devId) uid cs 0
        st).gameVersions.any
        (fun gv => gv.gameFk == g.id && gv.version == up.version) = false := by
      rw [h4]; exact hnew
    have hfin := DevServer.finish_success
      (DevServer.runChunks (some devId) uid cs 0 st) uid
      { up with received := cs.flatten.length, next_seq := cs.length,
                hasherBytes := cs.flatten }
      devId hash archiveOf m g htr h1 hdev
      (by show cs.flatten.length = up.expected_size; rw [hlen, hexp])
      (by show Py.lower (hash cs.flatten) = up.expected_sha256;
          rw [hsha]; exact hhash)
      (by exact h2) harch hg1 hgid hver hnew1
    refine ⟨?_, ?_, hfin.2.2⟩
    · rw [hfin.1, h5]
    · rw [hfin.2.1, h4, h5]
      simp [hexp, hsha]
  · intro st uid devId cs hash archiveOf up n s hf hne hlen hhashne
    obtain ⟨h1, h2, h3, h4, h5⟩ :=
      DevServer.runChunks_fresh devId uid cs st up n s hf hne (le_of_eq hlen)
    obtain ⟨htr, -, hdev, -, -, -, -, hexp, hsha⟩ := hf
    have hfin := DevServer.finish_err_hash_mismatch
      (DevServer.runChunks (some devId) uid cs 0 st) uid
      { up with received := cs.flatten.length, next_seq := cs.length,
                hasherBytes := cs.flatten }
      devId hash archiveOf htr h1 hdev
      (by show cs.flatten.length = up.expected_size; rw [hlen, hexp])
      (by show ¬ Py.lower (hash cs.flatten) = up.expected_sha256;
          rw [hsha]; exact hhashne)
    rw [hfin]
    exact ⟨rfl, h4⟩
  · exact fun st uid up devId seq d htr hup hdev hseq =>
      DevServer.chunk_err_bad_seq st uid up devId seq d htr hup hdev hseq
  · intro st uid devId cs hash archiveOf up n s hf hne hlt
    obtain ⟨h1, h2, h3, h4, h5⟩ :=
      DevServer.runChunks_fresh devId uid cs st up n s hf hne (le_of_lt hlt)
    obtain ⟨htr, -, hdev, -, -, -, -, hexp, hsha⟩ := hf
    have hfin := DevServer.finish_err_size_mismatch
      (DevServer.runChunks (some devId) uid cs 0 st) uid
      { up with received := cs.flatten.length, next_seq := cs.length,
                hasherBytes := cs.flatten }
      devId hash archiveOf htr h1 hdev
      (by show ¬ cs.flatten.length = up.expected_size; rw [hexp]; omega)
    rw [hfin]
    exact ⟨rfl, h4⟩
  · exact fun st uid up devId chunk htr hup hdev hcne hbig =>
      DevServer.chunk_err_too_large st uid up devId chunk htr hup hdev hcne
        hbig
  · intro st uid devId cs hash archiveOf up n s es hf hne hlen hhash hes hbad
    obtain ⟨h1, h2, h3, h4, h5⟩ :=
      DevServer.runChunks_fresh devId uid cs st up n s hf hne (le_of_eq hlen)
    obtain ⟨htr, -, hdev, -, -, -, -, hexp, hsha⟩ := hf
    have hfin := DevServer.finish_unsafe_entry
      (DevServer.runChunks (some devId) uid cs 0 st) uid
      { up with received := cs.flatten.length, next_seq := cs.length,
                hasherBytes := cs.flatten }
      devId hash archiveOf es htr h1 hdev
      (by show cs.flatten.length = up.expected_size; rw [hlen, hexp])
      (by show Py.lower (hash cs.flatten) = up.expected_sha256;
          rw [hsha]; exact hhash)
      (by exact h2) (by exact hes) hbad
    rw [hfin]
    exact ⟨rfl, h4⟩

/-- Witness for C2: the two-chunk upload `[7], [8]` to g1 under the toy
digest succeeds and removes the upload session. -/
theorem claim_C2_upload_integrity_witness :
    (DevServer.handle_upload_finish (some 1) "u1" DevServer.hashT
      (fun _ => DevServer.archOkG1)
      (DevServer.runChunks (some 1) "u1" [[7], [8]] 0
        DevServer.stFreshU1)).1 = .ok 2
    ∧ Assoc.lookupA (DevServer.handle_upload_finish (some 1) "u1"
        DevServer.hashT (fun _ => DevServer.archOkG1)
        (DevServer.runChunks (some 1) "u1" [[7], [8]] 0
          DevServer.stFreshU1)).2.uploads "u1" = none := by
  have h := (claim_C2_upload_integrity).1 DevServer.stFreshU1 "u1" 1
    [[7], [8]] DevServer.hashT (fun _ => DevServer.archOkG1)
    { gameId := "g1", version := "1.0.0", clientType := "cli",
      minPlayers := 2, maxPlayers := 2 }
    DevServer.gameG1 DevServer.sessU1 2 "aa"
    (by unfold DevServer.FreshSession; decide)
    (by decide) (by decide) (by decide)
    (by unfold DevServer.ArchiveAccepted
        exact ⟨⟨_, rfl, by decide⟩, rfl, rfl, rfl, rfl, rfl⟩)
    (by decide) (by decide) (by decide) (by decide)
  exact ⟨h.1, h.2.2⟩

theorem ReviewStore.toList_infix_left (m x : String) :
    m.toList <:+: (x ++ m).toList :=
  ⟨x.toList, [], by show x.toList ++ m.toList ++ [] = (x ++ m).toList; simp⟩

theorem ReviewStore.toList_infix_right (m x : String) :
    m.toList <:+: (m ++ x).toList :=
  ⟨[], x.toList, rfl⟩

theorem ReviewStore.infix_joinSep (sep : String) (l : List String)
    (x : String) (hx : x ∈ l) :
    x.toList <:+: (Py.joinSep sep l).toList := by
  induction l with
  | nil => simp at hx
  | cons a rest ih =>
    cases rest with
    | nil =>
      have : x = a := by simpa using hx
      subst this
      simp [Py.joinSep]
    | cons b rs =>
      rcases List.mem_cons.mp hx with h | h
      · subst h
        show x.toList <:+: (x ++ sep ++ Py.joinSep sep (b :: rs)).toList
        have h1 := ReviewStore.toList_infix_right x sep
        have h2 := ReviewStore.toList_infix_right (x ++ sep)
          (Py.joinSep sep (b :: rs))
        exact h1.trans h2
      · have h1 := ih h
        show x.toList <:+: (a ++ sep ++ Py.joinSep sep (b :: rs)).toList
        exact h1.trans (ReviewStore.toList_infix_left _ (a ++ sep))

theorem ReviewStore.participant_probe (row : ReviewStore.MLRow) (pid : Nat)
    (h : pid ∈ row.participants) :
    ReviewStore.containsSub (ReviewStore.mlJson row)
      (ReviewStore.likeUserId pid) = true := by
  unfold ReviewStore.containsSub
  rw [decide_eq_true_eq]
  have hitem : (ReviewStore.likeUserId pid).toList <:+:
      ("\x7b\"userId\": " ++ toString pid ++ "\x7d").toList := by
    refine ⟨("\x7b" : String).toList, ("\x7d" : String).toList, ?_⟩
    show ("\x7b" : String).toList ++
        (("\"userId\": " : String).toList ++ (toString pid).toList) ++
        ("\x7d" : String).toList =
      ("\x7b\"userId\": " : String).toList ++ (toString pid).toList ++
        ("\x7d" : String).toList
    have hsplit : ("\x7b\"userId\": " : String).toList =
        ("\x7b" : String).toList ++ ("\"userId\": " : String).toList := by
      decide
    rw [hsplit]
    simp [List.append_assoc]
  have hmem : ("\x7b\"userId\": " ++ toString pid ++ "\x7d") ∈
      row.participants.map
        (fun p => "\x7b\"userId\": " ++ toString p ++ "\x7d") :=
    List.mem_map_of_mem _ h
  have hjoin := ReviewStore.infix_joinSep ", "
    (row.participants.map
      (fun p => "\x7b\"userId\": " ++ toString p ++ "\x7d")) _ hmem
  have hrender : (Py.joinSep ", " (row.participants.map
      (fun p => "\x7b\"userId\": " ++ toString p ++ "\x7d"))).toList <:+:
      (Lobby.renderPlayersJson row.participants).toList := by
    unfold Lobby.renderPlayersJson
    exact (ReviewStore.toList_infix_left _ "[").trans
      (ReviewStore.toList_infix_right _ "]")
  have hml : (Lobby.renderPlayersJson row.participants).toList <:+:
      (ReviewStore.mlJson row).toList := by
    unfold ReviewStore.mlJson Lobby.renderResultsEnvelope
    have s1 := ReviewStore.toList_infix_left
      (Lobby.renderPlayersJson row.participants) "\x7b\"players\": "
    have s2 := ReviewStore.toList_infix_right
      ("\x7b\"players\": " ++ Lobby.renderPlayersJson row.participants)
      ", \"results\": "
    have s3 := ReviewStore.toList_infix_right
      ("\x7b\"players\": " ++ Lobby.renderPlayersJson row.participants ++
        ", \"results\": ") row.resultsStr
    have s4 := ReviewStore.toList_infix_right
      ("\x7b\"players\": " ++ Lobby.renderPlayersJson row.participants ++
        ", \"results\": " ++ row.resultsStr) "\x7d"
    exact ((s1.trans s2).trans s3).trans s4
  exact ((hitem.trans hjoin).trans hrender).trans hml

/-- C8 (amended): the claim is false on the code — `has_player_played` is
a substring probe (`LIKE '%"userId": <pid>%'` over `resultsJson`), not a
participant check. For a logged-in player and an existing game,
`review_create_or_update` succeeds iff some MatchLog of that game has the
substring `"userId": <pid>` in its resultsJson AND the rating is in
`[1,5]`; appearing as a participant implies the substring is present (so
participants can always review), but the probe also accepts non-
participants whose id is a prefix of another id in the log (e.g. 5 vs
53). -/
theorem claim_C8_review_substring_eligibility :
    (∀ (s : ReviewStore.StoreState) (pid : Nat) (gid : String)
      (rating : Int) (comment : String) (g : DevServer.GameRow),
      Py.strip gid = gid → gid ≠ "" → pid ≠ 0 →
      s.games.find? (fun g' => g'.gameId == gid) = some g →
      ((ReviewStore.handle_review_upsert s (some pid) gid rating
          comment).1 = .ok "reviewed" ↔
        (s.matchLogs.any (fun row => row.gameFk == g.id &&
            ReviewStore.containsSub (ReviewStore.mlJson row)
              (ReviewStore.likeUserId pid)) = true
          ∧ 1 ≤ rating ∧ rating ≤ 5)))
    ∧ (∀ (row : ReviewStore.MLRow) (pid : Nat), pid ∈ row.participants →
      ReviewStore.containsSub (ReviewStore.mlJson row)
        (ReviewStore.likeUserId pid) = true) := by
  constructor
  · intro s pid gid rating comment g htr hgid hpid hfind
    have hok : ¬ (gid = "" ∨ pid = 0) := by
      push_neg
      exact ⟨hgid, hpid⟩
    by_cases hplayed : s.matchLogs.any (fun row => row.gameFk == g.id &&
        ReviewStore.containsSub (ReviewStore.mlJson row)
          (ReviewStore.likeUserId pid)) = true
    · by_cases hrat : 1 ≤ rating ∧ rating ≤ 5
      · have h1 : ¬ rating < 1 := by omega
        have h2 : ¬ 5 < rating := by omega
        by_cases hex : ∃ x ∈ s.reviews, x.gameFk = g.id ∧ x.playerId = pid
        · simp [ReviewStore.handle_review_upsert, htr, hgid, hpid,
            ReviewStore.has_player_played, hok, hfind, hplayed,
            ReviewStore.review_upsert_db, h1, h2, hex, hrat]
        · simp [ReviewStore.handle_review_upsert, htr, hgid, hpid,
            ReviewStore.has_player_played, hok, hfind, hplayed,
            ReviewStore.review_upsert_db, h1, h2, hex, hrat]
      · rcases not_and_or.mp hrat with h | h
        · have h1 : rating < 1 := by omega
          simp [ReviewStore.handle_review_upsert, htr, hgid, hpid,
            ReviewStore.has_player_played, hok, hfind, hplayed,
            ReviewStore.review_upsert_db, h1, hrat]
        · have h1 : 5 < rating := by omega
          simp [ReviewStore.handle_review_upsert, htr, hgid, hpid,
            ReviewStore.has_player_played, hok, hfind, hplayed,
            ReviewStore.review_upsert_db, h1, hrat]
    · simp [ReviewStore.handle_review_upsert, htr, hgid, hpid,
        ReviewStore.has_player_played, hok, hfind, hplayed]
  · exact fun row pid h => ReviewStore.participant_probe row pid h

/-- C8 counterexample: player 5 never participated (the only MatchLog of
g1 lists exactly player 53), yet `review_create_or_update` succeeds —
because `"userId": 5` is a substring of `"userId": 53` — contradicting
the claim's "otherwise it fails with not_played". -/
theorem claim_C8_counterexample :
    (ReviewStore.handle_review_upsert ReviewStore.sC8 (some 5) "g1" 5
      "ok").1 = .ok "reviewed"
    ∧ (5 : Nat) ∉ ([53] : List Nat) := by
  decide

/-- Witness for C8: the substring characterization at a concrete store,
and the participation-implies-probe direction at a concrete row. -/
theorem claim_C8_review_substring_eligibility_witness :
    ((ReviewStore.handle_review_upsert ReviewStore.sC8 (some 5) "g1" 5
        "ok").1 = .ok "reviewed" ↔
      (ReviewStore.sC8.matchLogs.any (fun row =>
          row.gameFk == DevServer.gameG1.id &&
          ReviewStore.containsSub (ReviewStore.mlJson row)
            (ReviewStore.likeUserId 5)) = true
        ∧ 1 ≤ (5 : Int) ∧ (5 : Int) ≤ 5))
    ∧ ReviewStore.containsSub
        (ReviewStore.mlJson
          { gameFk := 1, participants := [7, 9], resultsStr := "[]" })
        (ReviewStore.likeUserId 9) = true := by
  have h := claim_C8_review_substring_eligibility
  exact ⟨h.1 ReviewStore.sC8 5 "g1" 5 "ok" DevServer.gameG1 (by decide)
      (by decide) (by decide) (by decide),
    h.2 { gameFk := 1, participants := [7, 9], resultsStr := "[]" } 9
      (by decide)⟩

theorem Lobby.pushAll_delivered (st : Lobby.LState) (ps : List Nat)
    (mk : Nat → Lobby.PEvent)
    (h : ∀ u ∈ ps, (Assoc.lookupA st.sessions u).isSome = true) :
    Lobby.pushAll st ps mk = { st with events := st.events ++ ps.map mk } := by
  induction ps generalizing st with
  | nil => simp [Lobby.pushAll]
  | cons a rest ih =>
    obtain ⟨v, hv⟩ := Option.isSome_iff_exists.mp
      (h a (List.mem_cons_self a rest))
    have hstep : Lobby.pushTo st a (mk a) =
        { st with events := st.events ++ [mk a] } := by
      simp [Lobby.pushTo, hv]
    have hrest : ∀ u ∈ rest,
        (Assoc.lookupA ({ st with events := st.events ++ [mk a] } :
          Lobby.LState).sessions u).isSome = true := by
      intro u hu
      exact h u (List.mem_cons_of_mem a hu)
    calc Lobby.pushAll st (a :: rest) mk
        = Lobby.pushAll { st with events := st.events ++ [mk a] } rest mk := by
          simp [Lobby.pushAll, hstep]
      _ = { st with events := st.events ++ mk a :: rest.map mk } := by
          rw [ih _ hrest]
          simp

theorem Lobby.pushTo_only_events (st : Lobby.LState) (a : Nat)
    (e : Lobby.PEvent) :
    (Lobby.pushTo st a e).room = st.room ∧
    (Lobby.pushTo st a e).live = st.live ∧
    (Lobby.pushTo st a e).sessions = st.sessions ∧
    (Lobby.pushTo st a e).matchLogs = st.matchLogs ∧
    (Lobby.pushTo st a e).gameReadyBroadcasts = st.gameReadyBroadcasts ∧
    (Lobby.pushTo st a e).clock = st.clock := by
  unfold Lobby.pushTo
  cases Assoc.lookupA st.sessions a <;> simp

theorem Lobby.pushAll_only_events (st : Lobby.LState) (ps : List Nat)
    (mk : Nat → Lobby.PEvent) :
    (Lobby.pushAll st ps mk).room = st.room ∧
    (Lobby.pushAll st ps mk).live = st.live ∧
    (Lobby.pushAll st ps mk).sessions = st.sessions ∧
    (Lobby.pushAll st ps mk).matchLogs = st.matchLogs ∧
    (Lobby.pushAll st ps mk).gameReadyBroadcasts = st.gameReadyBroadcasts ∧
    (Lobby.pushAll st ps mk).clock = st.clock := by
  induction ps generalizing st with
  | nil => simp [Lobby.pushAll]
  | cons a rest ih =>
    have hstep : Lobby.pushAll st (a :: rest) mk =
        Lobby.pushAll (Lobby.pushTo st a (mk a)) rest mk := rfl
    rw [hstep]
    have h1 := Lobby.pushTo_only_events st a (mk a)
    have h2 := ih (Lobby.pushTo st a (mk a))
    exact ⟨h2.1.trans h1.1, h2.2.1.trans h1.2.1, h2.2.2.1.trans h1.2.2.1,
      h2.2.2.2.1.trans h1.2.2.2.1, h2.2.2.2.2.1.trans h1.2.2.2.2.1,
      h2.2.2.2.2.2.trans h1.2.2.2.2.2⟩

theorem Lobby.pushAll_room (st : Lobby.LState) (ps : List Nat)
    (mk : Nat → Lobby.PEvent) : (Lobby.pushAll st ps mk).room = st.room :=
  (Lobby.pushAll_only_events st ps mk).1

theorem Lobby.pushAll_live (st : Lobby.LState) (ps : List Nat)
    (mk : Nat → Lobby.PEvent) : (Lobby.pushAll st ps mk).live = st.live :=
  (Lobby.pushAll_only_events st ps mk).2.1

theorem Lobby.pushAll_sessions (st : Lobby.LState) (ps : List Nat)
    (mk : Nat → Lobby.PEvent) :
    (Lobby.pushAll st ps mk).sessions = st.sessions :=
  (Lobby.pushAll_only_events st ps mk).2.2.1

theorem Lobby.pushAll_matchLogs (st : Lobby.LState) (ps : List Nat)
    (mk : Nat → Lobby.PEvent) :
    (Lobby.pushAll st ps mk).matchLogs = st.matchLogs :=
  (Lobby.pushAll_only_events st ps mk).2.2.2.1

theorem Lobby.pushAll_broadcasts (st : Lobby.LState) (ps : List Nat)
    (mk : Nat → Lobby.PEvent) :
    (Lobby.pushAll st ps mk).gameReadyBroadcasts =
      st.gameReadyBroadcasts :=
  (Lobby.pushAll_only_events st ps mk).2.2.2.2.1

theorem Lobby.pushAll_clock (st : Lobby.LState) (ps : List Nat)
    (mk : Nat → Lobby.PEvent) : (Lobby.pushAll st ps mk).clock = st.clock :=
  (Lobby.pushAll_only_events st ps mk).2.2.2.2.2

theorem Lobby.pushAll_events_delivered (st : Lobby.LState) (ps : List Nat)
    (mk : Nat → Lobby.PEvent)
    (h : ∀ u ∈ ps, (Assoc.lookupA st.sessions u).isSome = true) :
    (Lobby.pushAll st ps mk).events = st.events ++ ps.map mk := by
  rw [Lobby.pushAll_delivered st ps mk h]

/-- C6 (amended): the claim is false on the code — the new host is the
FIRST element of the lobby's cached member list after removing the leaver
(`live.players[0]`), and that cache is kept in ascending player-id order
by the join handler (`sorted(set(players + [new]))`), not in joinedAt
order. On a host leave from a waiting room with at least one remaining
member, the room's cached and stored host become that head element, and
every remaining member with a live session is sent `host_changed` with
the new host's id (followed by `player_left`). -/
theorem claim_C6_host_succession (st : Lobby.LState) (p : Nat)
    (l : Lobby.RoomLive) (r : Lobby.DbRoom)
    (hsess : Assoc.lookupA st.sessions p = some (some Lobby.RID))
    (hlive : st.live = some l)
    (hroom : st.room = some r)
    (hwait : l.status = .waiting)
    (hhost : l.host_player_id = p)
    (hrem : l.players.filter (fun u => u ≠ p) ≠ [])
    (hon : ∀ u ∈ l.players.filter (fun u => u ≠ p),
      (Assoc.lookupA st.sessions u).isSome = true) :
    Lobby.handle_room_leave st p =
      (.ok "left",
        { st with
          room := some
            { hostPlayerId := (l.players.filter (fun u => u ≠ p)).headD 0,
              members := r.members.filter (fun m => m.1 ≠ p),
              status := r.status },
          live := some
            { l with players := l.players.filter (fun u => u ≠ p),
                     host_player_id :=
                       (l.players.filter (fun u => u ≠ p)).headD 0 },
          sessions := Assoc.mapA st.sessions p (fun _ => none),
          events := st.events ++
            ((l.players.filter (fun u => u ≠ p)).map
              (fun u => Lobby.PEvent.host_changed u
                ((l.players.filter (fun u => u ≠ p)).headD 0))) ++
            ((l.players.filter (fun u => u ≠ p)).map
              (fun u => Lobby.PEvent.player_left u p)) }) := by
  have hrem2 : ∃ x ∈ l.players, ¬ x = p := by
    simpa using hrem
  have hne : ¬ ∀ a ∈ l.players, a = p := by
    simpa using hrem
  simp only [Lobby.handle_room_leave, hsess, Lobby.ensure_room_live, hlive,
    Lobby.room_leave_inner, hroom, hwait, Lobby.setSessRoom]
  simp [hrem2, hne, hhost, Lobby.pushAll_room, Lobby.pushAll_live,
    Lobby.pushAll_sessions, Lobby.pushAll_matchLogs,
    Lobby.pushAll_broadcasts, Lobby.pushAll_clock]
  rw [Lobby.pushAll_events_delivered _ _ _ ?houter,
      Lobby.pushAll_events_delivered _ _ _ ?hinner]
  · simp [List.append_assoc]
  case houter =>
    intro u hu
    rw [Lobby.pushAll_sessions]
    exact hon u (by simpa using hu)
  case hinner =>
    intro u hu
    exact hon u (by simpa using hu)

/-- C6 counterexample: host 5 creates the room, player 7 joins (t=1),
player 3 joins (t=2). When 5 leaves, the code promotes 3 — the smallest
remaining player id in the re-sorted cache — while the earliest-joined
remaining member (by joinedAt) is 7. -/
theorem claim_C6_counterexample :
    ((Lobby.runOps Lobby.cfgC6 Lobby.stSess573
        [.createRoom 5, .joinRoom 7, .joinRoom 3, .leaveRoom 5]).room.map
      (fun r => r.hostPlayerId)) = some 3
    ∧ Lobby.earliestJoined
        (((Lobby.runOps Lobby.cfgC6 Lobby.stSess573
          [.createRoom 5, .joinRoom 7, .joinRoom 3,
            .leaveRoom 5]).room.map (fun r => r.members)).getD []) = some 7
    ∧ (3 : Nat) ≠ 7 := by
  decide

/-- Witness for C6 at the concrete three-member room. -/
theorem claim_C6_host_succession_witness :
    (Lobby.handle_room_leave Lobby.stPreLeave 5).1 = .ok "left"
    ∧ ((Lobby.handle_room_leave Lobby.stPreLeave 5).2.room.map
        (fun r => r.hostPlayerId)) = some 3 := by
  have h := claim_C6_host_succession Lobby.stPreLeave 5 Lobby.lPreLeave
    Lobby.rPreLeave (by decide) (by decide) (by decide) (by decide)
    (by decide) (by decide) (by decide)
  rw [h]
  constructor
  · rfl
  · decide

theorem Lobby.ensure_room (st : Lobby.LState) :
    (Lobby.ensure_room_live st).2.room = st.room := by
  unfold Lobby.ensure_room_live
  rcases hl : st.live with _ | l
  · rcases hr : st.room with _ | r <;> simp [hl, hr]
  · simp [hl]

theorem Lobby.ensure_sessions (st : Lobby.LState) :
    (Lobby.ensure_room_live st).2.sessions = st.sessions := by
  unfold Lobby.ensure_room_live
  rcases hl : st.live with _ | l
  · rcases hr : st.room with _ | r <;> simp [hl, hr]
  · simp [hl]

theorem Lobby.finish_match_members (st : Lobby.LState)
    (res : Option Lobby.MatchResult) (r' : Lobby.DbRoom)
    (h : (Lobby.finish_match st res).room = some r') :
    ∃ r, st.room = some r ∧ r'.members = r.members := by
  unfold Lobby.finish_match at h
  rcases he : Lobby.ensure_room_live st with ⟨liveOpt, st1⟩
  have hr1 : st1.room = st.room := by
    have := Lobby.ensure_room st
    rw [he] at this
    exact this
  rw [he] at h
  rcases liveOpt with _ | live
  · simp at h
    exact ⟨r', by rw [← hr1, h], rfl⟩
  · simp only at h
    split at h
    · exact ⟨r', by rw [← hr1, h], rfl⟩
    · rcases res with _ | rr
      · split at h
        · simp at h
          exact ⟨r', by rw [← hr1, h], rfl⟩
        · rw [Lobby.pushAll_room] at h
          simp at h
          rcases hx : st1.room with _ | r0
          · rw [hx] at h; simp at h
          · rw [hx] at h
            simp at h
            exact ⟨r0, by rw [← hr1, hx], by rw [← h]⟩
      · split at h
        · simp at h
          exact ⟨r', by rw [← hr1, h], rfl⟩
        · rw [Lobby.pushAll_room] at h
          simp at h
          rcases hx : st1.room with _ | r0
          · rw [hx] at h; simp at h
          · rw [hx] at h
            simp at h
            exact ⟨r0, by rw [← hr1, hx], by rw [← h]⟩

theorem Lobby.leave_inner_members (st : Lobby.LState) (p : Nat)
    (sr : Option Nat) (force : Bool) (r' : Lobby.DbRoom)
    (h : (Lobby.room_leave_inner st p sr force).room = some r') :
    ∃ r, st.room = some r ∧
      (r'.members = r.members ∨
       r'.members = r.members.filter (fun m => m.1 ≠ p)) := by
  unfold Lobby.room_leave_inner at h
  rcases sr with _ | rid
  · exact ⟨r', h, Or.inl rfl⟩
  rcases he : Lobby.ensure_room_live st with ⟨liveOpt, st1⟩
  have hr1 : st1.room = st.room := by
    have := Lobby.ensure_room st
    rw [he] at this
    exact this
  rw [he] at h
  rw [← hr1]
  simp only at h
  split at h
  · exact ⟨r', h, Or.inl rfl⟩
  rcases liveOpt with _ | live
  · simp only [Lobby.setSessRoom] at h
    simp at h
    rcases hx : st1.room with _ | r0 <;> rw [hx] at h <;> simp at h
    exact ⟨r0, rfl, Or.inr (by rw [← h]; simp)⟩
  · simp only [Lobby.setSessRoom, Lobby.pushAll_room] at h
    split at h
    · rename_i hempty
      have hempty2 : ¬ ∃ x ∈ live.players, ¬ x = p := by simpa using hempty
      simp [hempty, hempty2] at h
      rcases hx : st1.room with _ | r0 <;> rw [hx] at h
      · simp at h
      · simp at h
        obtain ⟨-, h2⟩ := h
        rw [← h2]
        exact ⟨r0, rfl, Or.inr (by simp)⟩
    · rename_i hnonempty
      have hne2 : ∃ x ∈ live.players, ¬ x = p := by
        simpa using hnonempty
      by_cases hh : live.host_player_id = p
      · simp [hne2, hh, Lobby.pushAll_room] at h
        rcases hx : st1.room with _ | r0 <;> rw [hx] at h
        · simp at h
        · simp at h
          exact ⟨r0, rfl, Or.inr (by rw [← h]; simp)⟩
      · simp [hne2, hh, Lobby.pushAll_room] at h
        rcases hx : st1.room with _ | r0 <;> rw [hx] at h
        · simp at h
        · simp at h
          exact ⟨r0, rfl, Or.inr (by rw [← h]; simp)⟩

theorem Lobby.ensure_clock (st : Lobby.LState) :
    (Lobby.ensure_room_live st).2.clock = st.clock := by
  unfold Lobby.ensure_room_live
  rcases hl : st.live with _ | l
  · rcases hr : st.room with _ | r <;> simp [hl, hr]
  · simp [hl]

theorem Lobby.join_members (st : Lobby.LState) (cfg : Lobby.GVCfg)
    (p rid : Nat) (r' : Lobby.DbRoom)
    (h : (Lobby.handle_room_join st cfg p rid).2.room = some r') :
    ∃ r, st.room = some r ∧
      (r'.members = r.members ∨
       (r'.members = r.members ++ [(p, st.clock)] ∧
        r.members.length <
          (if cfg.maxPlayers = 0 then 2 else cfg.maxPlayers))) := by
  unfold Lobby.handle_room_join at h
  rcases hs : Assoc.lookupA st.sessions p with _ | sr
  · rw [hs] at h
    exact ⟨r', h, Or.inl rfl⟩
  rcases sr with _ | rr
  swap
  · rw [hs] at h
    exact ⟨r', h, Or.inl rfl⟩
  rw [hs] at h
  simp only at h
  split at h
  · exact ⟨r', h, Or.inl rfl⟩
  split at h
  · exact ⟨r', h, Or.inl rfl⟩
  rcases he : Lobby.ensure_room_live st with ⟨liveOpt, st1⟩
  have hr1 : st1.room = st.room := by
    have := Lobby.ensure_room st
    rw [he] at this
    exact this
  have hc1 : st1.clock = st.clock := by
    have := Lobby.ensure_clock st
    rw [he] at this
    exact this
  rw [he] at h
  rw [← hr1, ← hc1]
  rcases liveOpt with _ | live
  · simp only at h
    exact ⟨r', h, Or.inl rfl⟩
  simp only at h
  split at h
  · exact ⟨r', h, Or.inl rfl⟩
  rcases hx : st1.room with _ | r0
  · simp [hx] at h
  simp only [hx] at h
  simp only [Lobby.setSessRoom, Lobby.pushAll_room] at h
  split at h
  · simp [hx] at h
    exact ⟨r0, rfl, Or.inl (by rw [h])⟩
  · split at h <;>
    [skip; skip] <;>
    · rename_i hzero
      split at h
      · simp [hx] at h
        exact ⟨r0, rfl, Or.inl (by rw [h])⟩
      · rename_i hlt
        simp [hx, Lobby.pushAll_room] at h
        refine ⟨r0, rfl, Or.inr ⟨?_, ?_⟩⟩
        · first
          | rw [h]
          | rw [← h]
        · simp [Lobby.dbPlayers] at hlt
          simp [hzero]
          omega

theorem Lobby.login_room (st : Lobby.LState) (p : Nat) :
    (Lobby.loginSess st p).room = st.room := by
  unfold Lobby.loginSess
  split <;> rfl

theorem Lobby.post_members (st : Lobby.LState) (rid : Nat)
    (res : Lobby.MatchResult) (r' : Lobby.DbRoom)
    (h : (Lobby.handle_post_result st rid res).2.room = some r') :
    ∃ r, st.room = some r ∧ r'.members = r.members := by
  unfold Lobby.handle_post_result at h
  split at h
  · exact ⟨r', h, rfl⟩
  split at h
  · exact Lobby.finish_match_members st (some res) r' h
  · exact ⟨r', h, rfl⟩

theorem Lobby.ensure_then_exit_members (st0 : Lobby.LState)
    (r' : Lobby.DbRoom)
    (h : (match Lobby.ensure_room_live st0 with
          | (none, st2) => st2
          | (some live, st2) =>
            if (live.status != Lobby.RStatus.playing) = true then st2
            else Lobby.finish_match st2
              (some { reason := "process_exit", resultsStr := "[]" })).room =
        some r') :
    ∃ r, st0.room = some r ∧ r'.members = r.members := by
  rcases he : Lobby.ensure_room_live st0 with ⟨liveOpt, st2⟩
  have hr2 : st2.room = st0.room := by
    have := Lobby.ensure_room st0
    rw [he] at this
    exact this
  rw [he] at h
  rcases liveOpt with _ | live
  · exact ⟨r', by rw [← hr2]; exact h, rfl⟩
  simp only at h
  split at h
  · exact ⟨r', by rw [← hr2]; exact h, rfl⟩
  · obtain ⟨r, hr, hm⟩ := Lobby.finish_match_members st2 _ r' h
    exact ⟨r, by rw [← hr2]; exact hr, hm⟩

theorem Lobby.watch_members (st : Lobby.LState) (r' : Lobby.DbRoom)
    (h : (Lobby.watch_game_fire st).room = some r') :
    ∃ r, st.room = some r ∧ r'.members = r.members := by
  unfold Lobby.watch_game_fire at h
  simp only at h
  obtain ⟨r, hr, hm⟩ := Lobby.ensure_then_exit_members _ r' h
  exact ⟨r, hr, hm⟩

theorem Lobby.cleanup_members (st : Lobby.LState) (p : Nat)
    (r' : Lobby.DbRoom)
    (h : (Lobby.cleanup_connection st p).room = some r') :
    ∃ r, st.room = some r ∧
      (r'.members = r.members ∨
       r'.members = r.members.filter (fun m => m.1 ≠ p)) := by
  unfold Lobby.cleanup_connection at h
  rcases hs : Assoc.lookupA st.sessions p with _ | sr
  · rw [hs] at h
    exact ⟨r', h, Or.inl rfl⟩
  rw [hs] at h
  rcases sr with _ | rid
  · exact ⟨r', h, Or.inl rfl⟩
  simp only at h
  rcases he : Lobby.ensure_room_live
      { st with sessions := Assoc.delA st.sessions p } with ⟨liveOpt, st2⟩
  have hr2 : st2.room = st.room := by
    have := Lobby.ensure_room { st with sessions := Assoc.delA st.sessions p }
    rw [he] at this
    exact this
  rw [he] at h
  split at h
  · obtain ⟨r1, hr1, hm1⟩ := Lobby.leave_inner_members _ p (some rid) true r' h
    obtain ⟨r2, hr2b, hm2⟩ := Lobby.finish_match_members st2 _ r1 hr1
    refine ⟨r2, by rw [← hr2]; exact hr2b, ?_⟩
    rw [hm2] at hm1
    exact hm1
  · obtain ⟨r1, hr1, hm1⟩ := Lobby.leave_inner_members st2 p (some rid) true r' h
    exact ⟨r1, by rw [← hr2]; exact hr1, hm1⟩

theorem Lobby.leave_members (st : Lobby.LState) (p : Nat)
    (r' : Lobby.DbRoom)
    (h : (Lobby.handle_room_leave st p).2.room = some r') :
    ∃ r, st.room = some r ∧
      (r'.members = r.members ∨
       r'.members = r.members.filter (fun m => m.1 ≠ p)) := by
  unfold Lobby.handle_room_leave at h
  rcases hs : Assoc.lookupA st.sessions p with _ | sr
  · rw [hs] at h
    exact ⟨r', h, Or.inl rfl⟩
  rw [hs] at h
  rcases sr with _ | rid
  · simp only at h
    split at h
    · exact ⟨r', h, Or.inl rfl⟩
    · exact Lobby.leave_inner_members st p none false r' h
  · simp only at h
    rcases he : Lobby.ensure_room_live st with ⟨liveOpt, st2⟩
    have hr2 : st2.room = st.room := by
      have := Lobby.ensure_room st
      rw [he] at this
      exact this
    rw [he] at h
    split at h
    · exact ⟨r', by rw [← hr2]; exact h, Or.inl rfl⟩
    · obtain ⟨r1, hr1, hm1⟩ := Lobby.leave_inner_members st2 p (some rid) false r' h
      exact ⟨r1, by rw [← hr2]; exact hr1, hm1⟩

theorem Lobby.start_tail_members (st2 : Lobby.LState) (cfg : Lobby.GVCfg)
    (ok : Bool) (tok : String) (port : Nat) (r' : Lobby.DbRoom)
    (h : (match st2.room with
          | none => (Lobby.LReply.err "no_such_room", st2)
          | some r =>
            if (Lobby.dbPlayers r).length <
                (if cfg.minPlayers = 0 then 2 else cfg.minPlayers) then
              (Lobby.LReply.err "need_more_players", st2)
            else if !ok then (Lobby.LReply.err "spawn_failed", st2)
            else
              match Lobby.ensure_room_live st2 with
              | (none, st3) => (Lobby.LReply.err "no_such_room", st3)
              | (some live2, st3) =>
                (Lobby.LReply.ok "started",
                  Lobby.pushAll
                    { st3 with
                      live := some { live2 with
                        status := Lobby.RStatus.playing,
                        players := Lobby.dbPlayers r,
                        token := some tok,
                        game_port := some port,
                        game_proc := some Lobby.ProcState.running },
                      room := st3.room.map (fun rr : Lobby.DbRoom =>
                        { rr with status := Lobby.RStatus.playing }) }
                    (Lobby.dbPlayers r)
                    (fun u => Lobby.PEvent.game_info u))).2.room = some r') :
    ∃ r, st2.room = some r ∧ r'.members = r.members := by
  rcases hx : st2.room with _ | r0
  · rw [hx] at h
    simp only at h
    rw [hx] at h
    exact absurd h (by simp)
  rw [hx] at h
  simp only at h
  refine ⟨r0, rfl, ?_⟩
  rcases he2 : Lobby.ensure_room_live st2 with ⟨lo2, st3⟩
  have h3 : st3.room = st2.room := by
    have := Lobby.ensure_room st2
    rw [he2] at this
    exact this
  rw [he2] at h
  rcases lo2 with _ | live2 <;> simp only at h <;> repeat' split at h
  all_goals
    first
    | { replace h : st2.room = some r' := h
        rw [hx] at h
        simp only [Option.some.injEq] at h
        rw [← h] }
    | { replace h : st3.room = some r' := h
        rw [h3, hx] at h
        simp only [Option.some.injEq] at h
        rw [← h] }
    | { replace h : (Lobby.pushAll _ _ _).room = some r' := h
        rw [Lobby.pushAll_room] at h
        replace h : st3.room.map _ = some r' := h
        rw [h3, hx] at h
        simp only [Option.map_some', Option.some.injEq] at h
        rw [← h] }

set_option maxHeartbeats 1600000 in
theorem Lobby.start_members (st : Lobby.LState) (cfg : Lobby.GVCfg)
    (p rid0 : Nat) (ok : Bool) (tok : String) (port : Nat)
    (r' : Lobby.DbRoom)
    (h : (Lobby.handle_room_start st cfg p rid0 ok tok port).2.room =
      some r') :
    ∃ r, st.room = some r ∧ r'.members = r.members := by
  unfold Lobby.handle_room_start at h
  rcases hs : Assoc.lookupA st.sessions p with _ | sr
  · rw [hs] at h
    exact ⟨r', h, rfl⟩
  rw [hs] at h
  simp only at h
  split at h
  all_goals split at h
  all_goals try exact ⟨r', h, rfl⟩
  all_goals split at h
  all_goals try exact ⟨r', h, rfl⟩
  · rename_i stX heq
    have hX : stX.room = st.room := by
      have := Lobby.ensure_room st
      rw [heq] at this
      exact this
    exact ⟨r', by rw [← hX]; exact h, rfl⟩
  · rename_i live0 stX heq
    have hX : stX.room = st.room := by
      have := Lobby.ensure_room st
      rw [heq] at this
      exact this
    split at h
    · exact ⟨r', by rw [← hX]; exact h, rfl⟩
    split at h
    · exact ⟨r', by rw [← hX]; exact h, rfl⟩
    obtain ⟨r2, hr2, hm2⟩ :=
      Lobby.start_tail_members _ cfg ok tok port r' h
    split at hr2
    · split at hr2
      · obtain ⟨r, hr, hm⟩ := Lobby.finish_match_members stX _ r2 hr2
        exact ⟨r, by rw [← hX]; exact hr, hm2.trans hm⟩
      · obtain ⟨r, hr, hm⟩ := Lobby.finish_match_members stX _ r2 hr2
        exact ⟨r, by rw [← hX]; exact hr, hm2.trans hm⟩
    · exact ⟨r2, by rw [← hX]; exact hr2, hm2⟩
  · rcases he : Lobby.ensure_room_live st with ⟨liveOpt, stX⟩
    have hX : stX.room = st.room := by
      have := Lobby.ensure_room st
      rw [he] at this
      exact this
    rw [he] at h
    rcases liveOpt with _ | live0
    · exact ⟨r', by rw [← hX]; exact h, rfl⟩
    simp only at h
    split at h
    · exact ⟨r', by rw [← hX]; exact h, rfl⟩
    split at h
    · exact ⟨r', by rw [← hX]; exact h, rfl⟩
    obtain ⟨r2, hr2, hm2⟩ :=
      Lobby.start_tail_members _ cfg ok tok port r' h
    split at hr2
    · split at hr2
      · obtain ⟨r, hr, hm⟩ := Lobby.finish_match_members stX _ r2 hr2
        exact ⟨r, by rw [← hX]; exact hr, hm2.trans hm⟩
      · obtain ⟨r, hr, hm⟩ := Lobby.finish_match_members stX _ r2 hr2
        exact ⟨r, by rw [← hX]; exact hr, hm2.trans hm⟩
    · exact ⟨r2, by rw [← hX]; exact hr2, hm2⟩

theorem Lobby.create_tail_room (st1 : Lobby.LState) (p : Nat)
    (r' : Lobby.DbRoom)
    (h : (match Lobby.ensure_room_live st1 with
          | (liveOpt, st2) =>
            (Lobby.LReply.ok "created",
              match liveOpt with
              | some _ => Lobby.setSessRoom st2 p (some Lobby.RID)
              | none => st2)).2.room = some r') :
    st1.room = some r' := by
  rcases he : Lobby.ensure_room_live st1 with ⟨liveOpt, st2⟩
  have hX : st2.room = st1.room := by
    have := Lobby.ensure_room st1
    rw [he] at this
    exact this
  rw [he] at h
  rcases liveOpt with _ | l <;> simp only at h
  · rw [← hX]
    exact h
  · rw [← hX]
    exact h

theorem Lobby.create_members (st : Lobby.LState) (p : Nat)
    (r' : Lobby.DbRoom)
    (h : (Lobby.handle_room_create st p).2.room = some r') :
    (∃ r, st.room = some r ∧ r'.members = r.members) ∨
      r'.members = [(p, st.clock)] := by
  unfold Lobby.handle_room_create at h
  rcases hs : Assoc.lookupA st.sessions p with _ | sr
  · rw [hs] at h
    exact Or.inl ⟨r', h, rfl⟩
  rcases sr with _ | rr
  swap
  · rw [hs] at h
    exact Or.inl ⟨r', h, rfl⟩
  rw [hs] at h
  simp only at h
  rcases hr : st.room with _ | r0
  · rw [hr] at h
    simp only at h
    have h2 := Lobby.create_tail_room _ p r' h
    replace h2 :
        (some
          { hostPlayerId := p, members := [(p, st.clock)],
            status := Lobby.RStatus.waiting } : Option Lobby.DbRoom) =
          some r' := h2
    simp only [Option.some.injEq] at h2
    right
    rw [← h2]
  · rw [hr] at h
    simp only at h
    refine Or.inl ⟨r0, rfl, ?_⟩
    replace h : st.room = some r' := h
    rw [hr] at h
    simp only [Option.some.injEq] at h
    rw [← h]

theorem Lobby.applyOp_members_bound (cfg : Lobby.GVCfg) (st : Lobby.LState)
    (op : Lobby.Op)
    (hst : ∀ r, st.room = some r →
      r.members.length ≤ (if cfg.maxPlayers = 0 then 2 else cfg.maxPlayers)) :
    ∀ r', (Lobby.applyOp cfg st op).room = some r' →
      r'.members.length ≤
        (if cfg.maxPlayers = 0 then 2 else cfg.maxPlayers) := by
  intro r' h
  cases op with
  | login p =>
    replace h : (Lobby.loginSess st p).room = some r' := h
    rw [Lobby.login_room] at h
    exact hst r' h
  | createRoom p =>
    replace h : (Lobby.handle_room_create st p).2.room = some r' := h
    rcases Lobby.create_members st p r' h with ⟨r, hr, hm⟩ | hm
    · rw [hm]
      exact hst r hr
    · rw [hm]
      simp only [List.length_cons, List.length_nil]
      split
      · omega
      · rename_i hz
        omega
  | joinRoom p =>
    replace h : (Lobby.handle_room_join st cfg p Lobby.RID).2.room = some r' := h
    rcases Lobby.join_members st cfg p Lobby.RID r' h with ⟨r, hr, hm | ⟨hm, hlt⟩⟩
    · rw [hm]
      exact hst r hr
    · rw [hm]
      simp only [List.length_append, List.length_cons, List.length_nil]
      omega
  | leaveRoom p =>
    replace h : (Lobby.handle_room_leave st p).2.room = some r' := h
    rcases Lobby.leave_members st p r' h with ⟨r, hr, hm | hm⟩
    · rw [hm]
      exact hst r hr
    · rw [hm]
      exact le_trans (List.length_filter_le _ _) (hst r hr)
  | startRoom p ok =>
    replace h :
        (Lobby.handle_room_start st cfg p Lobby.RID ok "tok" 12345).2.room =
          some r' := h
    obtain ⟨r, hr, hm⟩ :=
      Lobby.start_members st cfg p Lobby.RID ok "tok" 12345 r' h
    rw [hm]
    exact hst r hr
  | post res =>
    replace h : (Lobby.handle_post_result st Lobby.RID res).2.room = some r' := h
    obtain ⟨r, hr, hm⟩ := Lobby.post_members st Lobby.RID res r' h
    rw [hm]
    exact hst r hr
  | childExit =>
    replace h : (Lobby.watch_game_fire st).room = some r' := h
    obtain ⟨r, hr, hm⟩ := Lobby.watch_members st r' h
    rw [hm]
    exact hst r hr
  | disconnect p =>
    replace h : (Lobby.cleanup_connection st p).room = some r' := h
    rcases Lobby.cleanup_members st p r' h with ⟨r, hr, hm | hm⟩
    · rw [hm]
      exact hst r hr
    · rw [hm]
      exact le_trans (List.length_filter_le _ _) (hst r hr)

theorem Lobby.runOps_members_bound (cfg : Lobby.GVCfg) (ops : List Lobby.Op) :
    ∀ st : Lobby.LState,
      (∀ r, st.room = some r →
        r.members.length ≤ (if cfg.maxPlayers = 0 then 2 else cfg.maxPlayers)) →
      ∀ r', (Lobby.runOps cfg st ops).room = some r' →
        r'.members.length ≤
          (if cfg.maxPlayers = 0 then 2 else cfg.maxPlayers) := by
  induction ops with
  | nil => exact fun st hst r' h => hst r' h
  | cons op rest ih =>
    intro st hst r' h
    exact ih (Lobby.applyOp cfg st op)
      (Lobby.applyOp_members_bound cfg st op hst) r' h

theorem Lobby.join_full (st : Lobby.LState) (cfg : Lobby.GVCfg)
    (p : Nat) (live : Lobby.RoomLive) (st1 : Lobby.LState)
    (r : Lobby.DbRoom)
    (hs : Assoc.lookupA st.sessions p = some none)
    (he : Lobby.ensure_room_live st = (some live, st1))
    (hpl : (live.status == Lobby.RStatus.playing) = false)
    (hr : st1.room = some r)
    (hc : (Lobby.dbPlayers r).contains p = false)
    (hfull : (if cfg.maxPlayers = 0 then 2 else cfg.maxPlayers) ≤
      (Lobby.dbPlayers r).length) :
    Lobby.handle_room_join st cfg p Lobby.RID =
      (Lobby.LReply.err "room_full", st1) := by
  have hpl' : ¬ live.status = Lobby.RStatus.playing := by simpa using hpl
  have hc' : ¬ p ∈ Lobby.dbPlayers r := by simpa using hc
  unfold Lobby.handle_room_join
  rw [hs]
  norm_num [Lobby.RID]
  rw [he]
  norm_num [hpl']
  rw [hr]
  norm_num [hc', hfull]

theorem Lobby.join_idem (st : Lobby.LState) (cfg : Lobby.GVCfg)
    (p : Nat) (live : Lobby.RoomLive) (st1 : Lobby.LState)
    (r : Lobby.DbRoom)
    (hs : Assoc.lookupA st.sessions p = some none)
    (he : Lobby.ensure_room_live st = (some live, st1))
    (hpl : (live.status == Lobby.RStatus.playing) = false)
    (hr : st1.room = some r)
    (hc : (Lobby.dbPlayers r).contains p = true) :
    Lobby.handle_room_join st cfg p Lobby.RID =
      (Lobby.LReply.ok "joined", Lobby.setSessRoom st1 p (some Lobby.RID)) := by
  have hpl' : ¬ live.status = Lobby.RStatus.playing := by simpa using hpl
  have hc' : p ∈ Lobby.dbPlayers r := by simpa using hc
  unfold Lobby.handle_room_join
  rw [hs]
  norm_num [Lobby.RID]
  rw [he]
  norm_num [hpl']
  rw [hr]
  norm_num [hc']

theorem Lobby.start_tail_ok (st2 : Lobby.LState) (cfg : Lobby.GVCfg)
    (ok : Bool) (tok : String) (port : Nat) (st' : Lobby.LState)
    (h : (match st2.room with
          | none => (Lobby.LReply.err "no_such_room", st2)
          | some r =>
            if (Lobby.dbPlayers r).length <
                (if cfg.minPlayers = 0 then 2 else cfg.minPlayers) then
              (Lobby.LReply.err "need_more_players", st2)
            else if !ok then (Lobby.LReply.err "spawn_failed", st2)
            else
              match Lobby.ensure_room_live st2 with
              | (none, st3) => (Lobby.LReply.err "no_such_room", st3)
              | (some live2, st3) =>
                (Lobby.LReply.ok "started",
                  Lobby.pushAll
                    { st3 with
                      live := some { live2 with
                        status := Lobby.RStatus.playing,
                        players := Lobby.dbPlayers r,
                        token := some tok,
                        game_port := some port,
                        game_proc := some Lobby.ProcState.running },
                      room := st3.room.map (fun rr : Lobby.DbRoom =>
                        { rr with status := Lobby.RStatus.playing }) }
                    (Lobby.dbPlayers r)
                    (fun u => Lobby.PEvent.game_info u))) =
        (Lobby.LReply.ok "started", st')) :
    ∃ live, st'.live = some live ∧
      live.status = Lobby.RStatus.playing ∧
      (if cfg.minPlayers = 0 then 2 else cfg.minPlayers) ≤
        live.players.length := by
  rcases hx : st2.room with _ | r0
  · rw [hx] at h
    exact absurd h (by simp)
  rw [hx] at h
  simp only at h
  rcases he2 : Lobby.ensure_room_live st2 with ⟨lo2, st3⟩
  rw [he2] at h
  rcases lo2 with _ | live2 <;> simp only at h
  all_goals repeat' split at h
  all_goals try (exfalso; revert h; simp; done)
  all_goals have h2 : (Lobby.pushAll _ _ _) = st' := congrArg Prod.snd h
  all_goals rw [← h2]
  all_goals rw [Lobby.pushAll_live]
  all_goals refine ⟨_, rfl, rfl, ?_⟩
  all_goals show (if cfg.minPlayers = 0 then 2 else cfg.minPlayers) ≤
    (Lobby.dbPlayers r0).length
  all_goals (split <;> omega)

set_option maxHeartbeats 1600000 in
theorem Lobby.start_ok_min (st : Lobby.LState) (cfg : Lobby.GVCfg)
    (p rid0 : Nat) (ok : Bool) (tok : String) (port : Nat)
    (st' : Lobby.LState)
    (h : Lobby.handle_room_start st cfg p rid0 ok tok port =
      (Lobby.LReply.ok "started", st')) :
    ∃ live, st'.live = some live ∧
      live.status = Lobby.RStatus.playing ∧
      (if cfg.minPlayers = 0 then 2 else cfg.minPlayers) ≤
        live.players.length := by
  unfold Lobby.handle_room_start at h
  rcases hs : Assoc.lookupA st.sessions p with _ | sr
  · rw [hs] at h
    exact absurd h (by simp)
  rw [hs] at h
  simp only at h
  by_cases h0 : (if rid0 ≠ 0 then rid0 else sr.getD 0) = 0
  · rw [if_pos h0] at h
    exact absurd h (by simp)
  rw [if_neg h0] at h
  by_cases h1 : (if rid0 ≠ 0 then rid0 else sr.getD 0) ≠ Lobby.RID
  · rw [if_pos h1] at h
    exact absurd h (by simp)
  rw [if_neg h1] at h
  rcases he : Lobby.ensure_room_live st with ⟨liveOpt, st1⟩
  rw [he] at h
  rcases liveOpt with _ | live
  · exact absurd h (by simp)
  simp only at h
  split at h
  · exact absurd h (by simp)
  split at h
  · exact absurd h (by simp)
  exact Lobby.start_tail_ok _ cfg ok tok port st' h

/-- C7: in every room state reachable from the empty lobby, the member
count never exceeds the effective maxPlayers of the attached GameVersion
(2 when the version leaves maxPlayers unset); a join by a non-member when
the room is at capacity fails with `room_full` and changes nothing; a
join by an existing member succeeds idempotently without touching the
member list; and a `room_start` that replies `started` leaves a playing
cache entry with at least the effective minPlayers players. -/
theorem claim_C7_room_capacity (cfg : Lobby.GVCfg) :
    (∀ ops r, (Lobby.runOps cfg Lobby.init0 ops).room = some r →
      r.members.length ≤ (if cfg.maxPlayers = 0 then 2 else cfg.maxPlayers))
    ∧ (∀ st st1 live p r,
        Assoc.lookupA st.sessions p = some none →
        Lobby.ensure_room_live st = (some live, st1) →
        (live.status == Lobby.RStatus.playing) = false →
        st1.room = some r →
        ((Lobby.dbPlayers r).contains p = false →
          (if cfg.maxPlayers = 0 then 2 else cfg.maxPlayers) ≤
            (Lobby.dbPlayers r).length →
          Lobby.handle_room_join st cfg p Lobby.RID =
            (Lobby.LReply.err "room_full", st1))
        ∧ ((Lobby.dbPlayers r).contains p = true →
          Lobby.handle_room_join st cfg p Lobby.RID =
            (Lobby.LReply.ok "joined",
              Lobby.setSessRoom st1 p (some Lobby.RID))))
    ∧ (∀ st p rid0 ok tok port st',
        Lobby.handle_room_start st cfg p rid0 ok tok port =
          (Lobby.LReply.ok "started", st') →
        ∃ live, st'.live = some live ∧
          live.status = Lobby.RStatus.playing ∧
          (if cfg.minPlayers = 0 then 2 else cfg.minPlayers) ≤
            live.players.length) := by
  refine ⟨?_, ?_, ?_⟩
  · intro ops r h
    refine Lobby.runOps_members_bound cfg ops Lobby.init0 ?_ r h
    intro r0 h0
    simp [Lobby.init0] at h0
  · intro st st1 live p r hs he hpl hr
    exact ⟨fun hc hfull =>
        Lobby.join_full st cfg p live st1 r hs he hpl hr hc hfull,
      fun hc => Lobby.join_idem st cfg p live st1 r hs he hpl hr hc⟩
  · intro st p rid0 ok tok port st' h
    exact Lobby.start_ok_min st cfg p rid0 ok tok port st' h

/-- C7 witness: a 2-player room under a 2..2 GameVersion. -/
theorem claim_C7_room_capacity_witness :
    (Lobby.runOps Lobby.cfgC7 Lobby.init0 Lobby.opsC7).room = some Lobby.rC7
    ∧ Lobby.rC7.members.length ≤ 2
    ∧ Lobby.handle_room_join Lobby.stC7 Lobby.cfgC7 3 Lobby.RID =
        (Lobby.LReply.err "room_full", Lobby.stC7)
    ∧ Lobby.handle_room_join Lobby.stC7 Lobby.cfgC7 2 Lobby.RID =
        (Lobby.LReply.ok "joined", Lobby.setSessRoom Lobby.stC7 2 (some Lobby.RID))
    ∧ ∃ live,
        (Lobby.handle_room_start Lobby.stC7 Lobby.cfgC7 1 Lobby.RID true
            "tok" 12345).2.live = some live ∧
        live.status = Lobby.RStatus.playing ∧
        2 ≤ live.players.length := by
  have h1 := (claim_C7_room_capacity Lobby.cfgC7).1 Lobby.opsC7 Lobby.rC7 (by rfl)
  have h2 := ((claim_C7_room_capacity Lobby.cfgC7).2.1 Lobby.stC7 Lobby.stC7 Lobby.liveC7 3 Lobby.rC7
      (by rfl) (by rfl) (by rfl) (by rfl)).1 (by rfl) (by decide)
  have h3 := ((claim_C7_room_capacity Lobby.cfgC7).2.1 Lobby.stC7 Lobby.stC7 Lobby.liveC7 2 Lobby.rC7
      (by rfl) (by rfl) (by rfl) (by rfl)).2 (by rfl)
  have h4 := (claim_C7_room_capacity Lobby.cfgC7).2.2 Lobby.stC7 1 Lobby.RID true "tok"
      12345 (Lobby.handle_room_start Lobby.stC7 Lobby.cfgC7 1 Lobby.RID true "tok" 12345).2
      (by rfl)
  refine ⟨by rfl, by simpa [Lobby.cfgC7] using h1, h2, h3, ?_⟩
  obtain ⟨live, hl, hp, hm⟩ := h4
  exact ⟨live, hl, hp, by simpa [Lobby.cfgC7] using hm⟩

theorem Lobby.pushAll_events_general (st : Lobby.LState) (ps : List Nat)
    (mk : Nat → Lobby.PEvent) :
    (Lobby.pushAll st ps mk).events =
      st.events ++
        (ps.filter (fun u => (Assoc.lookupA st.sessions u).isSome)).map mk := by
  induction ps generalizing st with
  | nil => simp [Lobby.pushAll]
  | cons a rest ih =>
    have hstep : Lobby.pushAll st (a :: rest) mk =
        Lobby.pushAll (Lobby.pushTo st a (mk a)) rest mk := rfl
    rw [hstep, ih]
    rcases hl : Assoc.lookupA st.sessions a with _ | v
    · have hpt : Lobby.pushTo st a (mk a) = st := by
        unfold Lobby.pushTo
        rw [hl]
      rw [hpt, List.filter_cons]
      simp [hl]
    · have hpt : Lobby.pushTo st a (mk a) =
          { st with events := st.events ++ [mk a] } := by
        unfold Lobby.pushTo
        rw [hl]
      rw [hpt, List.filter_cons]
      simp [hl]

theorem Lobby.readyFilter_ready (ps : List Nat) (f : Nat → String) :
    (ps.map (fun u => Lobby.PEvent.game_ready u (f u))).filter
      Lobby.isReadyEvent =
      ps.map (fun u => Lobby.PEvent.game_ready u (f u)) := by
  induction ps with
  | nil => rfl
  | cons a rest ih => simp [List.filter_cons, Lobby.isReadyEvent, ih]

theorem Lobby.readyFilter_none (es : List Lobby.PEvent)
    (h : ∀ e ∈ es, Lobby.isReadyEvent e = false) :
    es.filter Lobby.isReadyEvent = [] := by
  induction es with
  | nil => rfl
  | cons a rest ih =>
    rw [List.filter_cons]
    rw [h a (List.mem_cons_self a rest)]
    exact ih (fun e he => h e (List.mem_cons_of_mem a he))

theorem Lobby.finish_closed (st : Lobby.LState)
    (res : Option Lobby.MatchResult) (h : Lobby.ClosedRoom st) :
    Lobby.ClosedRoom (Lobby.finish_match st res)
    ∧ (Lobby.finish_match st res).gameReadyBroadcasts =
        st.gameReadyBroadcasts
    ∧ (Lobby.finish_match st res).events = st.events
    ∧ (Lobby.finish_match st res).matchLogs.length =
        st.matchLogs.length +
          (if res.isSome && (st.live.isSome || st.room.isSome) then 1
           else 0) := by
  obtain ⟨hlive, hroom⟩ := h
  unfold Lobby.finish_match Lobby.ensure_room_live
  rcases hl : st.live with _ | l
  · rcases hr : st.room with _ | rr
    · simp only
      refine ⟨⟨?_, ?_⟩, trivial, trivial, by simp⟩
      · intro l0 h0
        rw [hl] at h0
        cases h0
      · intro r0 h0
        rw [hr] at h0
        cases h0
    · have hw : rr.status = Lobby.RStatus.waiting := hroom rr hr
      simp only [hw]
      rcases res with _ | r
      · simp [Lobby.ClosedRoom]
        exact hw
      · simp [Lobby.ClosedRoom]
        exact hw
  · obtain ⟨hw, ht, hp⟩ := hlive l hl
    simp only [hw, ht, hp]
    rcases res with _ | r
    · simp [Lobby.ClosedRoom]
      exact ⟨hlive, hroom⟩
    · simp [Lobby.ClosedRoom]
      exact hroom

theorem Lobby.pushAll_ready_invariant (st : Lobby.LState) (ps : List Nat)
    (mk : Nat → Lobby.PEvent)
    (hmk : ∀ u, Lobby.isReadyEvent (mk u) = false) :
    (Lobby.pushAll st ps mk).events.filter Lobby.isReadyEvent =
      st.events.filter Lobby.isReadyEvent := by
  rw [Lobby.pushAll_events_general, List.filter_append]
  have hnil : ((ps.filter
      (fun u => (Assoc.lookupA st.sessions u).isSome)).map mk).filter
        Lobby.isReadyEvent = [] := by
    apply Lobby.readyFilter_none
    intro e he
    simp only [List.mem_map] at he
    obtain ⟨u, hu, rfl⟩ := he
    exact hmk u
  rw [hnil, List.append_nil]

theorem Lobby.ensure_closed (st : Lobby.LState) (h : Lobby.ClosedRoom st) :
    Lobby.ClosedRoom (Lobby.ensure_room_live st).2
    ∧ (∀ l, (Lobby.ensure_room_live st).1 = some l →
        l.status = Lobby.RStatus.waiting ∧ l.token = none ∧
          l.game_proc = none)
    ∧ (Lobby.ensure_room_live st).2.events = st.events
    ∧ (Lobby.ensure_room_live st).2.gameReadyBroadcasts =
        st.gameReadyBroadcasts
    ∧ (Lobby.ensure_room_live st).2.matchLogs = st.matchLogs
    ∧ (Lobby.ensure_room_live st).2.sessions = st.sessions
    ∧ (Lobby.ensure_room_live st).2.room = st.room := by
  obtain ⟨hlive, hroom⟩ := h
  unfold Lobby.ensure_room_live
  rcases hl : st.live with _ | l
  · rcases hr : st.room with _ | rr
    · simp [Lobby.ClosedRoom, hl, hr]
    · have hw : rr.status = Lobby.RStatus.waiting := hroom rr hr
      simp [Lobby.ClosedRoom, hl, hr, hw]
  · obtain ⟨hw, ht, hp⟩ := hlive l hl
    simp [Lobby.ClosedRoom, hl, hw, ht, hp]
    exact hroom

theorem Lobby.leave_inner_closed (st : Lobby.LState) (p : Nat)
    (sr : Option Nat) (force : Bool) (h : Lobby.ClosedRoom st) :
    Lobby.ClosedRoom (Lobby.room_leave_inner st p sr force)
    ∧ (Lobby.room_leave_inner st p sr force).gameReadyBroadcasts =
        st.gameReadyBroadcasts
    ∧ (Lobby.room_leave_inner st p sr force).matchLogs = st.matchLogs
    ∧ (Lobby.room_leave_inner st p sr force).events.filter
        Lobby.isReadyEvent = st.events.filter Lobby.isReadyEvent := by
  unfold Lobby.room_leave_inner
  rcases sr with _ | rid
  · exact ⟨h, rfl, rfl, rfl⟩
  simp only
  obtain ⟨hcl1, hlo, hev, hbr, hml, hse, hro⟩ := Lobby.ensure_closed st h
  rcases he : Lobby.ensure_room_live st with ⟨liveOpt, st1⟩
  rw [he] at hcl1 hlo hev hbr hml hse hro
  simp only at hcl1 hlo hev hbr hml hse hro
  simp only
  rcases liveOpt with _ | l
  · simp only
    simp only [Bool.and_false]
    rw [if_neg (by simp)]
    obtain ⟨hcl_live, hcl_room⟩ := hcl1
    refine ⟨⟨?_, ?_⟩, hbr, hml, ?_⟩
    · intro l0 h0
      exact hcl_live l0 h0
    · intro r0 h0
      replace h0 : Option.map _ st1.room = some r0 := h0
      rcases hx : st1.room with _ | r1
      · rw [hx] at h0
        cases h0
      · rw [hx] at h0
        simp only [Option.map_some', Option.some.injEq] at h0
        rw [← h0]
        exact hcl_room r1 hx
    · exact congrArg (List.filter Lobby.isReadyEvent) hev
  · obtain ⟨hw, ht, hp⟩ := hlo l rfl
    have hb : (l.status == Lobby.RStatus.playing) = false := by simp [hw]
    simp only
    rw [hb]
    simp only [Bool.and_false]
    rw [if_neg (by simp)]
    obtain ⟨hcl_live, hcl_room⟩ := hcl1
    refine ⟨⟨?_, ?_⟩, ?_, ?_, ?_⟩
    · intro l0 h0
      simp only [Lobby.setSessRoom] at h0
      split at h0
      · exact absurd h0 (by simp)
      · rw [Lobby.pushAll_live] at h0
        split at h0
        · rw [Lobby.pushAll_live] at h0
          simp only [Option.some.injEq] at h0
          rw [← h0]
          exact ⟨hw, ht, hp⟩
        · simp only [Option.some.injEq] at h0
          rw [← h0]
          exact ⟨hw, ht, hp⟩
    · intro r0 h0
      simp only [Lobby.setSessRoom] at h0
      split at h0
      · split at h0
        · rename_i r heq
          split at h0
          · exact absurd h0 (by simp)
          · simp only [Option.some.injEq] at h0
            rw [← h0]
            rw [Lobby.pushAll_room] at heq
            split at heq
            · rw [Lobby.pushAll_room] at heq
              simp only at heq
              rcases hx : st1.room with _ | r1
              · rw [hx] at heq
                exact absurd heq (by simp)
              · rw [hx] at heq
                simp only [Option.map_some', Option.some.injEq] at heq
                rw [← heq]
                exact hcl_room r1 hx
            · simp only at heq
              rcases hx : st1.room with _ | r1
              · rw [hx] at heq
                exact absurd heq (by simp)
              · rw [hx] at heq
                simp only [Option.map_some', Option.some.injEq] at heq
                rw [← heq]
                exact hcl_room r1 hx
        · exact absurd h0 (by simp)
      · rw [Lobby.pushAll_room] at h0
        split at h0
        · rw [Lobby.pushAll_room] at h0
          simp only at h0
          rcases hx : st1.room with _ | r1
          · rw [hx] at h0
            exact absurd h0 (by simp)
          · rw [hx] at h0
            simp only [Option.map_some', Option.some.injEq] at h0
            rw [← h0]
            exact hcl_room r1 hx
        · simp only at h0
          rcases hx : st1.room with _ | r1
          · rw [hx] at h0
            exact absurd h0 (by simp)
          · rw [hx] at h0
            simp only [Option.map_some', Option.some.injEq] at h0
            rw [← h0]
            exact hcl_room r1 hx
    · simp only [Lobby.setSessRoom]
      split <;>
        rw [Lobby.pushAll_broadcasts] <;>
        split <;>
        first
        | (rw [Lobby.pushAll_broadcasts]
           exact hbr)
        | exact hbr
    · simp only [Lobby.setSessRoom]
      split <;>
        rw [Lobby.pushAll_matchLogs] <;>
        split <;>
        first
        | (rw [Lobby.pushAll_matchLogs]
           exact hml)
        | exact hml
    · simp only [Lobby.setSessRoom]
      split <;>
        rw [Lobby.pushAll_ready_invariant _ _
          (fun u => Lobby.PEvent.player_left u p) (fun u => rfl)] <;>
        split <;>
        first
        | (rw [Lobby.pushAll_ready_invariant _ _
             (fun u => Lobby.PEvent.host_changed u
               ((l.players.filter (fun u => u ≠ p)).headD 0))
             (fun u => rfl)]
           exact congrArg (List.filter Lobby.isReadyEvent) hev)
        | exact congrArg (List.filter Lobby.isReadyEvent) hev

theorem Lobby.watch_closed (st : Lobby.LState) (h : Lobby.ClosedRoom st) :
    Lobby.ClosedRoom (Lobby.watch_game_fire st)
    ∧ (Lobby.watch_game_fire st).gameReadyBroadcasts =
        st.gameReadyBroadcasts
    ∧ (Lobby.watch_game_fire st).matchLogs = st.matchLogs
    ∧ (Lobby.watch_game_fire st).events.filter Lobby.isReadyEvent =
        st.events.filter Lobby.isReadyEvent := by
  obtain ⟨hlive, hroom⟩ := h
  unfold Lobby.watch_game_fire
  simp only
  have hcl1 : Lobby.ClosedRoom
      { st with live := st.live.map (fun l =>
          { l with game_proc :=
              l.game_proc.map (fun _ => Lobby.ProcState.exited) }) } := by
    constructor
    · intro l0 h0
      simp only at h0
      rcases hx : st.live with _ | l1
      · rw [hx] at h0
        cases h0
      · rw [hx] at h0
        simp only [Option.map_some', Option.some.injEq] at h0
        obtain ⟨hw, ht, hp⟩ := hlive l1 hx
        rw [← h0]
        exact ⟨hw, ht, by rw [hp]; rfl⟩
    · intro r0 h0
      simp only at h0
      exact hroom r0 h0
  obtain ⟨hcl2, hlo, hev, hbr, hml, hse, hro⟩ :=
    Lobby.ensure_closed _ hcl1
  rcases he : Lobby.ensure_room_live
      { st with live := st.live.map (fun l =>
          { l with game_proc :=
              l.game_proc.map (fun _ => Lobby.ProcState.exited) }) } with
    ⟨liveOpt, st2⟩
  rw [he] at hcl2 hlo hev hbr hml hse hro
  simp only at hcl2 hlo hev hbr hml hse hro
  rcases liveOpt with _ | l
  · exact ⟨hcl2, hbr, hml, congrArg (List.filter Lobby.isReadyEvent) hev⟩
  · obtain ⟨hw, ht, hp⟩ := hlo l rfl
    have hb : (l.status != Lobby.RStatus.playing) = true := by simp [hw]
    simp only
    rw [hb]
    simp only [if_true]
    exact ⟨hcl2, hbr, hml, congrArg (List.filter Lobby.isReadyEvent) hev⟩

theorem Lobby.cleanup_closed (st : Lobby.LState) (p : Nat)
    (h : Lobby.ClosedRoom st) :
    Lobby.ClosedRoom (Lobby.cleanup_connection st p)
    ∧ (Lobby.cleanup_connection st p).gameReadyBroadcasts =
        st.gameReadyBroadcasts
    ∧ (Lobby.cleanup_connection st p).matchLogs = st.matchLogs
    ∧ (Lobby.cleanup_connection st p).events.filter Lobby.isReadyEvent =
        st.events.filter Lobby.isReadyEvent := by
  unfold Lobby.cleanup_connection
  rcases hs : Assoc.lookupA st.sessions p with _ | sroom
  · exact ⟨h, rfl, rfl, rfl⟩
  simp only
  have hcl1 : Lobby.ClosedRoom
      { st with sessions := Assoc.delA st.sessions p } :=
    ⟨fun l0 h0 => h.1 l0 h0, fun r0 h0 => h.2 r0 h0⟩
  rcases sroom with _ | rid
  · exact ⟨hcl1, rfl, rfl, rfl⟩
  simp only
  obtain ⟨hcl2, hlo, hev, hbr, hml, hse, hro⟩ :=
    Lobby.ensure_closed { st with sessions := Assoc.delA st.sessions p } hcl1
  rcases he : Lobby.ensure_room_live
      { st with sessions := Assoc.delA st.sessions p } with ⟨liveOpt, st2⟩
  rw [he] at hcl2 hlo hev hbr hml hse hro
  simp only at hcl2 hlo hev hbr hml hse hro
  have hcond : ∀ lo : Option Lobby.RoomLive,
      (∀ l, lo = some l → l.status = Lobby.RStatus.waiting ∧
        l.token = none ∧ l.game_proc = none) →
      (match lo with
       | some l => l.status == Lobby.RStatus.playing
       | none => false) = false := by
    intro lo hclo
    rcases lo with _ | l
    · rfl
    · obtain ⟨hw, ht, hp⟩ := hclo l rfl
      simp [hw]
  simp only
  rw [hcond liveOpt hlo]
  simp only [Bool.false_eq_true, if_false]
  obtain ⟨hc3, hb3, hm3, he3⟩ :=
    Lobby.leave_inner_closed st2 p (some rid) true hcl2
  refine ⟨hc3, hb3.trans hbr, hm3.trans hml, he3.trans ?_⟩
  exact congrArg (List.filter Lobby.isReadyEvent) hev

theorem Lobby.applyF_closed (st : Lobby.LState) (f : Lobby.FEvent)
    (h : Lobby.ClosedRoom st) :
    Lobby.ClosedRoom (Lobby.applyF st f)
    ∧ (Lobby.applyF st f).gameReadyBroadcasts = st.gameReadyBroadcasts
    ∧ (Lobby.applyF st f).events.filter Lobby.isReadyEvent =
        st.events.filter Lobby.isReadyEvent := by
  cases f with
  | postResult r =>
    obtain ⟨hc, hb, he, _⟩ := Lobby.finish_closed st (some r) h
    have happ : Lobby.applyF st (Lobby.FEvent.postResult r) =
        Lobby.finish_match st (some r) := by
      show (Lobby.handle_post_result st Lobby.RID r).2 = _
      unfold Lobby.handle_post_result
      norm_num [Lobby.RID]
    rw [happ]
    exact ⟨hc, hb, congrArg (List.filter Lobby.isReadyEvent) he⟩
  | childExit =>
    obtain ⟨hc, hb, _, he⟩ := Lobby.watch_closed st h
    exact ⟨hc, hb, he⟩
  | disconnect p =>
    obtain ⟨hc, hb, _, he⟩ := Lobby.cleanup_closed st p h
    exact ⟨hc, hb, he⟩

theorem Lobby.runF_closed (evs : List Lobby.FEvent) :
    ∀ st : Lobby.LState, Lobby.ClosedRoom st →
      Lobby.ClosedRoom (Lobby.runF st evs)
      ∧ (Lobby.runF st evs).gameReadyBroadcasts = st.gameReadyBroadcasts
      ∧ (Lobby.runF st evs).events.filter Lobby.isReadyEvent =
          st.events.filter Lobby.isReadyEvent := by
  induction evs with
  | nil => exact fun st h => ⟨h, rfl, rfl⟩
  | cons e rest ih =>
    intro st h
    obtain ⟨hc1, hb1, he1⟩ := Lobby.applyF_closed st e h
    obtain ⟨hc2, hb2, he2⟩ := ih (Lobby.applyF st e) hc1
    exact ⟨hc2, hb2.trans hb1, he2.trans he1⟩

theorem Lobby.first_post (st : Lobby.LState) (ps : List Nat)
    (r : Lobby.MatchResult) (h : Lobby.PostStart st ps) :
    Lobby.ClosedRoom (Lobby.finish_match st (some r))
    ∧ (Lobby.finish_match st (some r)).gameReadyBroadcasts =
        st.gameReadyBroadcasts + 1
    ∧ (Lobby.finish_match st (some r)).events.filter Lobby.isReadyEvent =
        st.events.filter Lobby.isReadyEvent ++
          Lobby.firstReadyEvents ps (Lobby.FEvent.postResult r) := by
  obtain ⟨l, rr, hl, hr, hstat, htok, hproc, hpl, hdb, hrst, hne, hnd,
    hsess⟩ := h
  unfold Lobby.finish_match Lobby.ensure_room_live
  rw [hl]
  simp only
  rw [hstat, hproc]
  simp only [bne_self_eq_false, Bool.false_and, Bool.false_eq_true,
    if_false]
  rw [hpl]
  refine ⟨⟨?_, ?_⟩, ?_, ?_⟩
  · intro l0 h0
    rw [Lobby.pushAll_live] at h0
    simp only [Option.some.injEq] at h0
    rw [← h0]
    exact ⟨rfl, rfl, rfl⟩
  · intro r0 h0
    rw [Lobby.pushAll_room] at h0
    simp only at h0
    rcases hx : st.room with _ | r1
    · rw [hx] at h0
      cases h0
    · rw [hx] at h0
      simp only [Option.map_some', Option.some.injEq] at h0
      rw [← h0]
  · rw [Lobby.pushAll_broadcasts]
  · rw [Lobby.pushAll_events_delivered _ _ _ (fun u hu => by
      show (Assoc.lookupA st.sessions u).isSome = true
      rw [hsess u hu]
      rfl)]
    simp only
    rw [List.filter_append, Lobby.readyFilter_ready]
    rfl

theorem Lobby.first_childExit (st : Lobby.LState) (ps : List Nat)
    (h : Lobby.PostStart st ps) :
    Lobby.ClosedRoom (Lobby.watch_game_fire st)
    ∧ (Lobby.watch_game_fire st).gameReadyBroadcasts =
        st.gameReadyBroadcasts + 1
    ∧ (Lobby.watch_game_fire st).events.filter Lobby.isReadyEvent =
        st.events.filter Lobby.isReadyEvent ++
          Lobby.firstReadyEvents ps Lobby.FEvent.childExit := by
  obtain ⟨l, rr, hl, hr, hstat, htok, hproc, hpl, hdb, hrst, hne, hnd,
    hsess⟩ := h
  unfold Lobby.watch_game_fire Lobby.finish_match Lobby.ensure_room_live
  rw [hl]
  simp only [Option.map_some']
  rw [hproc]
  simp only [Option.map_some']
  rw [hstat]
  simp only [bne_self_eq_false, Bool.false_and, Bool.false_eq_true,
    if_false]
  rw [hpl]
  refine ⟨⟨?_, ?_⟩, ?_, ?_⟩
  · intro l0 h0
    rw [Lobby.pushAll_live] at h0
    simp only [Option.some.injEq] at h0
    rw [← h0]
    exact ⟨rfl, rfl, rfl⟩
  · intro r0 h0
    rw [Lobby.pushAll_room] at h0
    simp only at h0
    rcases hx : st.room with _ | r1
    · rw [hx] at h0
      cases h0
    · rw [hx] at h0
      simp only [Option.map_some', Option.some.injEq] at h0
      rw [← h0]
  · rw [Lobby.pushAll_broadcasts]
  · rw [Lobby.pushAll_events_delivered _ _ _ (fun u hu => by
      show (Assoc.lookupA st.sessions u).isSome = true
      rw [hsess u hu]
      rfl)]
    simp only
    rw [List.filter_append, Lobby.readyFilter_ready]
    simp [Lobby.firstReadyEvents]

theorem Lobby.finish_running (st : Lobby.LState) (l : Lobby.RoomLive)
    (r : Lobby.MatchResult) (hl : st.live = some l)
    (hstat : l.status = Lobby.RStatus.playing)
    (hproc : l.game_proc = some Lobby.ProcState.running) :
    Lobby.ClosedRoom (Lobby.finish_match st (some r))
    ∧ (Lobby.finish_match st (some r)).gameReadyBroadcasts =
        st.gameReadyBroadcasts + 1
    ∧ (Lobby.finish_match st (some r)).events =
        st.events ++
          ((l.players.filter
              (fun u => (Assoc.lookupA st.sessions u).isSome)).map
            (fun u => Lobby.PEvent.game_ready u
              (if r.reason = "" then "finished" else r.reason))) := by
  unfold Lobby.finish_match Lobby.ensure_room_live
  rw [hl]
  simp only
  rw [hstat, hproc]
  simp only [bne_self_eq_false, Bool.false_and, Bool.false_eq_true,
    if_false]
  refine ⟨⟨?_, ?_⟩, ?_, ?_⟩
  · intro l0 h0
    rw [Lobby.pushAll_live] at h0
    simp only [Option.some.injEq] at h0
    rw [← h0]
    exact ⟨rfl, rfl, rfl⟩
  · intro r0 h0
    rw [Lobby.pushAll_room] at h0
    simp only at h0
    rcases hx : st.room with _ | r1
    · rw [hx] at h0
      cases h0
    · rw [hx] at h0
      simp only [Option.map_some', Option.some.injEq] at h0
      rw [← h0]
  · rw [Lobby.pushAll_broadcasts]
  · rw [Lobby.pushAll_events_general]

theorem Lobby.first_disconnect (st : Lobby.LState) (ps : List Nat)
    (p : Nat) (h : Lobby.PostStart st ps) (hp : p ∈ ps) :
    Lobby.ClosedRoom (Lobby.cleanup_connection st p)
    ∧ (Lobby.cleanup_connection st p).gameReadyBroadcasts =
        st.gameReadyBroadcasts + 1
    ∧ (Lobby.cleanup_connection st p).events.filter Lobby.isReadyEvent =
        st.events.filter Lobby.isReadyEvent ++
          Lobby.firstReadyEvents ps (Lobby.FEvent.disconnect p) := by
  obtain ⟨l, rr, hl, hr, hstat, htok, hproc, hpl, hdb, hrst, hne, hnd,
    hsess⟩ := h
  unfold Lobby.cleanup_connection
  rw [hsess p hp]
  simp only
  have hens : Lobby.ensure_room_live
      { st with sessions := Assoc.delA st.sessions p } =
      (some l, { st with sessions := Assoc.delA st.sessions p }) := by
    unfold Lobby.ensure_room_live
    simp only
    rw [hl]
  rw [hens]
  simp only
  have hb : (l.status == Lobby.RStatus.playing) = true := by simp [hstat]
  rw [hb]
  rw [if_pos rfl]
  obtain ⟨hc3, hb3, he3⟩ := Lobby.finish_running
    { st with sessions := Assoc.delA st.sessions p } l
    { reason := "disconnect", resultsStr := "[]" } hl hstat hproc
  obtain ⟨hc4, hb4, hm4, he4⟩ := Lobby.leave_inner_closed
    (Lobby.finish_match { st with sessions := Assoc.delA st.sessions p }
      (some { reason := "disconnect", resultsStr := "[]" }))
    p (some Lobby.RID) true hc3
  refine ⟨hc4, ?_, ?_⟩
  · exact hb4.trans hb3
  · refine he4.trans ?_
    rw [he3]
    rw [List.filter_append]
    have hfil : (l.players.filter (fun u =>
        (Assoc.lookupA (Assoc.delA st.sessions p) u).isSome)) =
        ps.filter (fun u => u ≠ p) := by
      rw [hpl]
      apply List.filter_congr
      intro u hu
      by_cases hup : u = p
      · rw [hup]
        rw [Assoc.lookup_delA]
        simp
      · rw [Assoc.lookup_delA_ne _ _ _ (fun hh => hup hh.symm)]
        rw [hsess u hu]
        simp [hup]
    rw [show (Assoc.lookupA (Assoc.delA st.sessions p)) =
      (Assoc.lookupA ({ st with
        sessions := Assoc.delA st.sessions p } : Lobby.LState).sessions)
      from rfl] at hfil
    rw [hfil]
    rw [Lobby.readyFilter_ready]
    simp [Lobby.firstReadyEvents]

theorem Lobby.applyF_first (st : Lobby.LState) (ps : List Nat)
    (e : Lobby.FEvent) (h : Lobby.PostStart st ps)
    (hd : ∀ p, e = Lobby.FEvent.disconnect p → p ∈ ps) :
    Lobby.ClosedRoom (Lobby.applyF st e)
    ∧ (Lobby.applyF st e).gameReadyBroadcasts =
        st.gameReadyBroadcasts + 1
    ∧ (Lobby.applyF st e).events.filter Lobby.isReadyEvent =
        st.events.filter Lobby.isReadyEvent ++
          Lobby.firstReadyEvents ps e := by
  cases e with
  | postResult r =>
    have happ : Lobby.applyF st (Lobby.FEvent.postResult r) =
        Lobby.finish_match st (some r) := by
      show (Lobby.handle_post_result st Lobby.RID r).2 = _
      unfold Lobby.handle_post_result
      norm_num [Lobby.RID]
    rw [happ]
    exact Lobby.first_post st ps r h
  | childExit => exact Lobby.first_childExit st ps h
  | disconnect p => exact Lobby.first_disconnect st ps p h (hd p rfl)

/-- C1 (amended): after a successful `room_start` (state `PostStart st
ps`), any nonempty sequence of settling events whose first event is a
`post_result`, the child process exiting, or a member disconnecting runs
the `game_ready` broadcast loop exactly once (delivered to every member
with a live session, so a disconnecting first finisher is excluded), and
the room ends settled (`waiting`, no token, no process). A late
`post_result` emits no further `game_ready` and appends a MatchLog row
only when the room's cache entry or store row still exists — if the
last member's leave deleted the room, the late `post_result` appends
nothing, contrary to the original claim. -/
theorem claim_C1_one_game_ready (st : Lobby.LState) (ps : List Nat)
    (e : Lobby.FEvent) (evs : List Lobby.FEvent) (r : Lobby.MatchResult)
    (h : Lobby.PostStart st ps)
    (hd : ∀ p, e = Lobby.FEvent.disconnect p → p ∈ ps) :
    (Lobby.runF st (e :: evs)).gameReadyBroadcasts =
        st.gameReadyBroadcasts + 1
    ∧ Lobby.ClosedRoom (Lobby.runF st (e :: evs))
    ∧ (Lobby.runF st (e :: evs)).events.filter Lobby.isReadyEvent =
        st.events.filter Lobby.isReadyEvent ++
          Lobby.firstReadyEvents ps e
    ∧ (Lobby.handle_post_result (Lobby.runF st (e :: evs)) Lobby.RID
          r).2.matchLogs.length =
        (Lobby.runF st (e :: evs)).matchLogs.length +
          (if (Lobby.runF st (e :: evs)).live.isSome ||
              (Lobby.runF st (e :: evs)).room.isSome then 1 else 0)
    ∧ (Lobby.handle_post_result (Lobby.runF st (e :: evs)) Lobby.RID
        r).2.gameReadyBroadcasts =
        (Lobby.runF st (e :: evs)).gameReadyBroadcasts := by
  obtain ⟨hc1, hb1, he1⟩ := Lobby.applyF_first st ps e h hd
  obtain ⟨hc2, hb2, he2⟩ :=
    Lobby.runF_closed evs (Lobby.applyF st e) hc1
  have hrun : Lobby.runF st (e :: evs) =
      Lobby.runF (Lobby.applyF st e) evs := rfl
  rw [hrun]
  have hpost : Lobby.handle_post_result
      (Lobby.runF (Lobby.applyF st e) evs) Lobby.RID r =
      (Lobby.LReply.ok "posted",
        Lobby.finish_match (Lobby.runF (Lobby.applyF st e) evs)
          (some r)) := by
    unfold Lobby.handle_post_result
    norm_num [Lobby.RID]
  obtain ⟨_, hbX, _, hlX⟩ := Lobby.finish_closed
    (Lobby.runF (Lobby.applyF st e) evs) (some r) hc2
  refine ⟨hb2.trans hb1, hc2, he2.trans he1, ?_, ?_⟩
  · rw [hpost]
    simpa using hlX
  · rw [hpost]
    exact hbX

/-- C1 counterexample. -/
theorem claim_C1_counterexample :
    Lobby.PostStart Lobby.stC1 [1, 2]
    ∧ (Lobby.runF Lobby.stC1
        [Lobby.FEvent.disconnect 1, Lobby.FEvent.disconnect 2]).room =
        none
    ∧ (Lobby.runF Lobby.stC1
        [Lobby.FEvent.disconnect 1, Lobby.FEvent.disconnect 2]).live =
        none
    ∧ (Lobby.runF Lobby.stC1
        [Lobby.FEvent.disconnect 1,
         Lobby.FEvent.disconnect 2]).matchLogs.length = 1
    ∧ (Lobby.runF Lobby.stC1
        [Lobby.FEvent.disconnect 1, Lobby.FEvent.disconnect 2,
         Lobby.FEvent.postResult
           { reason := "late", resultsStr := "[]" }]).matchLogs.length =
        1 := by
  refine ⟨⟨Lobby.liveC1, Lobby.rC1, rfl, rfl, rfl, rfl, rfl, rfl, rfl, rfl,
    by decide, by decide, by decide⟩, ?_, ?_, ?_, ?_⟩ <;> rfl

/-- C1 witness. -/
theorem claim_C1_one_game_ready_witness :
    Lobby.PostStart Lobby.stC1 [1, 2]
    ∧ (Lobby.runF Lobby.stC1
        [Lobby.FEvent.postResult { reason := "", resultsStr := "[7]" },
         Lobby.FEvent.childExit]).gameReadyBroadcasts = 1
    ∧ Lobby.ClosedRoom (Lobby.runF Lobby.stC1
        [Lobby.FEvent.postResult { reason := "", resultsStr := "[7]" },
         Lobby.FEvent.childExit])
    ∧ (Lobby.runF Lobby.stC1
        [Lobby.FEvent.postResult { reason := "", resultsStr := "[7]" },
         Lobby.FEvent.childExit]).events.filter Lobby.isReadyEvent =
        [Lobby.PEvent.game_ready 1 "finished",
         Lobby.PEvent.game_ready 2 "finished"] := by
  have hps : Lobby.PostStart Lobby.stC1 [1, 2] :=
    ⟨Lobby.liveC1, Lobby.rC1, rfl, rfl, rfl, rfl, rfl, rfl, rfl, rfl,
      by decide, by decide, by decide⟩
  have hmain := claim_C1_one_game_ready Lobby.stC1 [1, 2]
    (Lobby.FEvent.postResult { reason := "", resultsStr := "[7]" })
    [Lobby.FEvent.childExit] { reason := "late", resultsStr := "[]" }
    hps (fun p hp => nomatch hp)
  exact ⟨hps, hmain.1, hmain.2.1, hmain.2.2.1.trans (by rfl)⟩
